import Mathlib

/-!
The smart_video_info Windows plugin: metadata extraction and method-call dispatch.

A shallow embedding of `src/windows/smart_video_info_plugin.cpp`.

* Text is a list of characters; the two UTF-8/UTF-16 conversions are the identity on it.
* `HRESULT` is an integer, `FAILED hr` is `hr < 0`.
* The Media Foundation framework is a record of replies (`MediaFoundation`): what
  `MFStartup` returns, what `MFCreateSourceReaderFromURL` returns for each URL, and for
  every reader what `GetCurrentMediaType` returns at each 32-bit stream index and what
  `GetPresentationAttribute` returns for the duration.
* Every framework call made by `ExtractVideoMetadata` is recorded in a log of
  `MFEvent`s; `MFState` is the handle bookkeeping obtained by replaying such a log.
* The `while (true)` stream-count loop takes a fuel argument; `none` stands for a
  loop that has not left the `while` within that many iterations.
* The JSON text written to the `std::ostringstream` is kept as the list of
  members written (`Payload`); `Payload.render` is the text itself, which is the value
  the function returns. The text is written without escaping, so statements about the
  keys and the kind of the returned record are made on the text, through a lexical
  reading (`literals`, `memberKeys`, `isSuccessText`, `isFailureText`).
-/

namespace smart_video_info

/-! ## Machine integers -/

/-- An `HRESULT` status code. -/
abbrev HRESULT := Int

/-- The `FAILED(hr)` test: the status code is negative. -/
def FAILED (hr : HRESULT) : Bool := decide (hr < 0)

/-- The `SUCCEEDED(hr)` test: the status code is not negative. -/
def SUCCEEDED (hr : HRESULT) : Bool := decide (0 ≤ hr)

/-- Conversion of a `UINT32` to `int` (`width = w`, `bitrate = avgBitrate`, ...): the
32-bit pattern read as a two's complement number. -/
def UINT32_to_int (v : Nat) : Int :=
  if v % 2 ^ 32 < 2 ^ 31 then ((v % 2 ^ 32 : Nat) : Int)
  else ((v % 2 ^ 32 : Nat) : Int) - 2 ^ 32

/-- The 64-bit pattern of a `PROPVARIANT` read through `var.hVal.QuadPart`, a signed
`LONGLONG`. -/
def QuadPart (v : Nat) : Int :=
  if v % 2 ^ 64 < 2 ^ 63 then ((v % 2 ^ 64 : Nat) : Int)
  else ((v % 2 ^ 64 : Nat) : Int) - 2 ^ 64

/-- The value `streamCount++` stores in the `int` counter (32 bits, two's complement). -/
def int_increment (x : Int) : Int := (x + 1 + 2 ^ 31) % 2 ^ 32 - 2 ^ 31

/-- The value `streamIndex++` stores in the `DWORD` index. -/
def DWORD_increment (i : Nat) : Nat := (i + 1) % 2 ^ 32

/-- A `double` value, as far as the code can produce one: `finite q` is the double
nearest to the rational `q`, `inf` and `nan` are what IEEE division yields for a zero
divisor. -/
inductive DoubleVal
  | finite (q : ℚ)
  | inf
  | nan
deriving DecidableEq

/-- The expression `(double)numerator / denominator` on two `UINT32` operands. Both
operands convert to `double` exactly, so the result is the rounded exact quotient; a
zero divisor gives `nan` (0/0) or `inf`. -/
def double_div (numerator denominator : Nat) : DoubleVal :=
  if denominator = 0 then (if numerator = 0 then DoubleVal.nan else DoubleVal.inf)
  else DoubleVal.finite ((numerator : ℚ) / (denominator : ℚ))

/-! ## Text and the path helpers (lines 29-51) -/

/-- The `WStringToString` conversion (lines 29-35): an empty input gives the empty
string, otherwise `WideCharToMultiByte(CP_UTF8, ...)` re-encodes the same characters. -/
def WStringToString (wstr : List Char) : String :=
  if wstr.isEmpty then "" else String.mk wstr

/-- The `StringToWString` conversion (lines 37-43): an empty input gives the empty wide
string, otherwise `MultiByteToWideChar(CP_UTF8, ...)` re-encodes the same characters. -/
def StringToWString (str : String) : List Char :=
  if str.data.isEmpty then [] else str.data

/-- The characters `c_str()` exposes to a C-string interface: those before the first
NUL. -/
def c_str (w : List Char) : List Char := w.takeWhile (fun c => c != Char.ofNat 0)

/-- The scan performed by `PathFindExtensionW`: `lastpoint` is the text starting at the
most recent `.` that no backslash or space has followed (`none` when there is none). -/
def PathFindExtensionW.scan : List Char → Option (List Char) → List Char
  | [], lastpoint => lastpoint.getD []
  | c :: cs, lastpoint =>
    if c = Char.ofNat 92 ∨ c = ' ' then PathFindExtensionW.scan cs none
    else if c = '.' then PathFindExtensionW.scan cs (some (c :: cs))
    else PathFindExtensionW.scan cs lastpoint

/-- The platform routine `PathFindExtensionW` of shlwapi (an operating-system library,
not part of the repository). Its documented contract: it returns the address of the `.`
that precedes the extension, or the address of the terminating NUL when no extension is
found, and an extension contains neither a backslash nor a space. The result here is
the text from the returned address to the terminator. -/
def PathFindExtensionW (pszPath : List Char) : List Char :=
  PathFindExtensionW.scan pszPath none

/-- The `GetFileExtension` helper (lines 45-51): when the platform routine returns a
pointer at a `.`, the text after it; otherwise the empty string. -/
def GetFileExtension (path : List Char) : String :=
  match PathFindExtensionW (c_str path) with
  | c :: rest => if c = '.' then WStringToString rest else ""
  | [] => ""

/-- The reading of the specification: the text after the last `.` of the path, `none`
when the path has no `.`. -/
def afterLastDot : List Char → Option (List Char)
  | [] => none
  | c :: cs =>
    match afterLastDot cs with
    | some r => some r
    | none => if c = '.' then some cs else none

/-- The container tag as the specification words it: the substring after the last `.`,
the empty string if there is none. -/
def containerSpec (path : String) : String :=
  match afterLastDot path.data with
  | some r => String.mk r
  | none => ""

/-! ## The media framework -/

/-- A format identifier. The named constants are identifiers of the Windows SDK
(pairwise different GUIDs): those the code compares against, and `MFVideoFormat_HEVC`,
the SDK's identifier with the FOURCC `HEVC`, which is a different GUID from
`MFVideoFormat_H265` (FOURCC `H265`) and which the code does not compare against;
`other n` is any identifier that is none of them. -/
inductive GUID
  | MFVideoFormat_H264
  | MFVideoFormat_H265
  | MFVideoFormat_VP80
  | MFVideoFormat_VP90
  | MFVideoFormat_WMV3
  | MFVideoFormat_MPEG2
  | MFVideoFormat_HEVC
  | MFAudioFormat_AAC
  | MFAudioFormat_MP3
  | MFAudioFormat_WMAudioV8
  | MFAudioFormat_PCM
  | other (id : Nat)
deriving DecidableEq

/-- The attributes of an `IMFMediaType` descriptor that the code reads. Each is `none`
when its getter fails (the getter then leaves the output variables as initialised) and
otherwise holds the `UINT32` values (below `2 ^ 32`) or the GUID written.
`frameSize` is `MF_MT_FRAME_SIZE` (width, height), `frameRate` is `MF_MT_FRAME_RATE`
(numerator, denominator), `avgBitrate` is `MF_MT_AVG_BITRATE`, `subtype` is
`MF_MT_SUBTYPE`, `samplesPerSecond` is `MF_MT_AUDIO_SAMPLES_PER_SECOND` and
`numChannels` is `MF_MT_AUDIO_NUM_CHANNELS`. -/
structure MediaType where
  frameSize : Option (Nat × Nat)
  frameRate : Option (Nat × Nat)
  avgBitrate : Option Nat
  subtype : Option GUID
  samplesPerSecond : Option Nat
  numChannels : Option Nat
deriving DecidableEq

/-- The replies of an `IMFSourceReader`: for each `DWORD` stream index the status and
the descriptor pointer written by `GetCurrentMediaType` (`none` is a NULL pointer), and
the status and 64-bit value of `GetPresentationAttribute(MF_SOURCE_READER_MEDIASOURCE,
MF_PD_DURATION)`. -/
structure SourceReader where
  currentMediaType : Nat → HRESULT × Option MediaType
  presentationDuration : HRESULT × Nat

/-- The method `IMFSourceReader::GetCurrentMediaType`: the status, and the pointer
stored in the caller's variable, which a failing call leaves at its initial NULL. -/
def SourceReader.GetCurrentMediaType (pReader : SourceReader) (dwStreamIndex : Nat) :
    HRESULT × Option MediaType :=
  let reply := pReader.currentMediaType dwStreamIndex
  (reply.1, if FAILED reply.1 then none else reply.2)

/-- The method `IMFSourceReader::GetPresentationAttribute` for the duration. -/
def SourceReader.GetPresentationAttribute (pReader : SourceReader) : HRESULT × Nat :=
  pReader.presentationDuration

/-- The replies of the framework: the status of `MFStartup`, and for each URL the status
of `MFCreateSourceReaderFromURL` with the reader it creates (the reader is meaningful
only when the status is a success). -/
structure MediaFoundation where
  MFStartup : HRESULT
  MFCreateSourceReaderFromURL : List Char → HRESULT × SourceReader

/-- The stream selector `MF_SOURCE_READER_FIRST_VIDEO_STREAM` of the Windows SDK. -/
def MF_SOURCE_READER_FIRST_VIDEO_STREAM : Nat := 0xFFFFFFFC

/-- The stream selector `MF_SOURCE_READER_FIRST_AUDIO_STREAM` of the Windows SDK. -/
def MF_SOURCE_READER_FIRST_AUDIO_STREAM : Nat := 0xFFFFFFFD

/-! ## Framework calls and handle bookkeeping -/

/-- The three places of `ExtractVideoMetadata` that request a stream descriptor. -/
inductive CallSite
  | videoProbe
  | audioProbe
  | streamLoop (streamIndex : Nat)
deriving DecidableEq

/-- What a call can hand out and must be given back: the subsystem reference of
`MFStartup`, the source reader, a stream descriptor (named by the place that obtained
it) and the contents of the duration `PROPVARIANT`. -/
inductive Handle
  | subsystem
  | sourceReader
  | mediaType (site : CallSite)
  | propVariant
deriving DecidableEq

/-- One framework call. `GetCurrentMediaType site obtained` records whether the call
succeeded with a non-NULL descriptor. -/
inductive MFEvent
  | MFStartup (hr : HRESULT)
  | MFCreateSourceReaderFromURL (url : List Char) (hr : HRESULT)
  | GetCurrentMediaType (site : CallSite) (obtained : Bool)
  | MediaTypeRelease (site : CallSite)
  | GetPresentationAttribute (hr : HRESULT)
  | PropVariantClear
  | ReaderRelease
  | MFShutdown
deriving DecidableEq

/-- The handle a framework call hands out, if any. -/
def MFEvent.acquires : MFEvent → Option Handle
  | .MFStartup hr => if FAILED hr then none else some Handle.subsystem
  | .MFCreateSourceReaderFromURL _ hr => if FAILED hr then none else some Handle.sourceReader
  | .GetCurrentMediaType site obtained => if obtained then some (Handle.mediaType site) else none
  | .GetPresentationAttribute hr => if FAILED hr then none else some Handle.propVariant
  | _ => none

/-- The handle a framework call gives back, if any. -/
def MFEvent.releases : MFEvent → Option Handle
  | .MediaTypeRelease site => some (Handle.mediaType site)
  | .PropVariantClear => some Handle.propVariant
  | .ReaderRelease => some Handle.sourceReader
  | .MFShutdown => some Handle.subsystem
  | _ => none

/-- The bookkeeping of the framework: the handles outstanding, every handle handed out
so far, every release performed so far, and whether some release named a handle that
was not outstanding. -/
structure MFState where
  outstanding : List Handle
  acquired : List Handle
  released : List Handle
  fault : Bool
deriving DecidableEq

/-- The state before any call. -/
def MFState.initial : MFState := ⟨[], [], [], false⟩

/-- The effect of one framework call on the bookkeeping. -/
def MFState.step (s : MFState) (e : MFEvent) : MFState :=
  let s1 : MFState :=
    match e.acquires with
    | some h => { s with outstanding := h :: s.outstanding, acquired := h :: s.acquired }
    | none => s
  match e.releases with
  | some h =>
    { s1 with
      outstanding := s1.outstanding.erase h
      released := h :: s1.released
      fault := s1.fault || !(s1.outstanding.contains h) }
  | none => s1

/-- The bookkeeping after a sequence of calls. -/
def MFState.run (s : MFState) (log : List MFEvent) : MFState := log.foldl MFState.step s

/-! ## The result payload -/

/-- A scalar written to the JSON text. -/
inductive JsonValue
  | int (v : Int)
  | str (s : String)
  | bool (b : Bool)
  | num (d : DoubleVal)
deriving DecidableEq

/-- A member of the outer JSON object: a scalar or the nested `data` object. -/
inductive JsonMember
  | value (v : JsonValue)
  | object (members : List (String × JsonValue))
deriving DecidableEq

/-- The JSON object returned by `ExtractVideoMetadata`, as the members written in order. -/
abbrev Payload := List (String × JsonMember)

/-- The text of a scalar; strings are written between quotes without escaping, doubles
through the stream formatter `fmt`. -/
def JsonValue.render (fmt : DoubleVal → String) : JsonValue → String
  | .int v => toString v
  | .str s => "\"" ++ s ++ "\""
  | .bool b => if b then "true" else "false"
  | .num d => fmt d

/-- The text of a member list, separated by commas. -/
def renderMembers (fmt : DoubleVal → String) : List (String × JsonValue) → String
  | [] => ""
  | [(k, v)] => "\"" ++ k ++ "\":" ++ v.render fmt
  | (k, v) :: m :: rest =>
    "\"" ++ k ++ "\":" ++ v.render fmt ++ "," ++ renderMembers fmt (m :: rest)

/-- The text of an outer member. -/
def JsonMember.render (fmt : DoubleVal → String) : JsonMember → String
  | .value v => v.render fmt
  | .object members => "\x7b" ++ renderMembers fmt members ++ "\x7d"

/-- The text of the outer members, separated by commas. -/
def renderOuter (fmt : DoubleVal → String) : List (String × JsonMember) → String
  | [] => ""
  | [(k, v)] => "\"" ++ k ++ "\":" ++ v.render fmt
  | (k, v) :: m :: rest =>
    "\"" ++ k ++ "\":" ++ v.render fmt ++ "," ++ renderOuter fmt (m :: rest)

/-- The `std::string` returned: the JSON text of the payload. -/
def Payload.render (fmt : DoubleVal → String) (p : Payload) : String :=
  "\x7b" ++ renderOuter fmt p ++ "\x7d"

/-- The failure payload of lines 59 and 68: `success` false and an `error` message. -/
def failurePayload (message : String) : Payload :=
  [("success", .value (.bool false)), ("error", .value (.str message))]

/-- The member of the outer object under `key`. -/
def Payload.member (p : Payload) (key : String) : Option JsonMember := List.lookup key p

/-- The member of the nested `data` object under `key`. -/
def Payload.dataField (p : Payload) (key : String) : Option JsonValue :=
  match p.member "data" with
  | some (.object members) => List.lookup key members
  | _ => none

/-- A failure record as far as the member list goes, before it is written out:
`success` is false, an error message is present, no data. What the returned text holds
is read by `isFailureText`. -/
def Payload.isFailureRecord (p : Payload) : Bool :=
  p.member "success" == some (.value (.bool false)) &&
  (match p.member "error" with
   | some (.value (.str _)) => true
   | _ => false) &&
  (p.member "data").isNone

/-- A success record as far as the member list goes, before it is written out:
`success` is true, the data object is present, no error message. What the returned text
holds is read by `isSuccessText`. -/
def Payload.isSuccessRecord (p : Payload) : Bool :=
  p.member "success" == some (.value (.bool true)) &&
  (match p.member "data" with
   | some (.object _) => true
   | _ => false) &&
  (p.member "error").isNone

/-! ## `ExtractVideoMetadata` (lines 53-206) -/

/-- The local variables of the video section (lines 75-79). -/
structure VideoFields where
  width : Int
  height : Int
  fps : DoubleVal
  bitrate : Int
  rotation : Int
  codec : String
deriving DecidableEq

/-- The comparison chain of lines 103-109 on the video subtype. -/
def videoCodecName (subtype : GUID) : String :=
  if subtype = GUID.MFVideoFormat_H264 then "h264"
  else if subtype = GUID.MFVideoFormat_H265 then "hevc"
  else if subtype = GUID.MFVideoFormat_VP80 then "vp8"
  else if subtype = GUID.MFVideoFormat_VP90 then "vp9"
  else if subtype = GUID.MFVideoFormat_WMV3 then "wmv3"
  else if subtype = GUID.MFVideoFormat_MPEG2 then "mpeg2"
  else "unknown"

/-- The frame rate of lines 89-93 from the variables `numerator` and `denominator`:
the division is evaluated only under the guard `denominator > 0`. -/
def frameRate (numerator denominator : Nat) : DoubleVal :=
  if denominator > 0 then double_div numerator denominator else DoubleVal.finite 0

/-- The video section (lines 72-113) on the reply of
`GetCurrentMediaType(MF_SOURCE_READER_FIRST_VIDEO_STREAM)`. -/
def readVideo (reply : HRESULT × Option MediaType) : VideoFields :=
  match SUCCEEDED reply.1, reply.2 with
  | true, some pType =>
    let size := pType.frameSize.getD (0, 0)
    let ratio := pType.frameRate.getD (0, 1)
    let avgBitrate := pType.avgBitrate.getD 0
    let codec :=
      match pType.subtype with
      | some subtype => videoCodecName subtype
      | none => ""
    { width := UINT32_to_int size.1
      height := UINT32_to_int size.2
      fps := frameRate ratio.1 ratio.2
      bitrate := UINT32_to_int avgBitrate
      rotation := 0
      codec := codec }
  | _, _ => { width := 0, height := 0, fps := DoubleVal.finite 0, bitrate := 0, rotation := 0, codec := "" }

/-- The duration section (lines 116-126): the tick count divided by 10000 with the
truncating division of C++, or 0 when the attribute request fails. -/
def readDuration (reply : HRESULT × Nat) : Int :=
  if SUCCEEDED reply.1 then Int.tdiv (QuadPart reply.2) 10000 else 0

/-- The local variables of the audio section (lines 129-132). -/
structure AudioFields where
  hasAudio : Bool
  audioCodec : String
  sampleRate : Int
  channels : Int
deriving DecidableEq

/-- The comparison chain of lines 142-146 on the audio subtype. -/
def audioCodecName (audioSubtype : GUID) : String :=
  if audioSubtype = GUID.MFAudioFormat_AAC then "aac"
  else if audioSubtype = GUID.MFAudioFormat_MP3 then "mp3"
  else if audioSubtype = GUID.MFAudioFormat_WMAudioV8 then "wma"
  else if audioSubtype = GUID.MFAudioFormat_PCM then "pcm"
  else "unknown"

/-- The audio section (lines 128-160) on the reply of
`GetCurrentMediaType(MF_SOURCE_READER_FIRST_AUDIO_STREAM)`. -/
def readAudio (reply : HRESULT × Option MediaType) : AudioFields :=
  match SUCCEEDED reply.1, reply.2 with
  | true, some pAudioType =>
    let audioCodec :=
      match pAudioType.subtype with
      | some audioSubtype => audioCodecName audioSubtype
      | none => ""
    { hasAudio := true
      audioCodec := audioCodec
      sampleRate := UINT32_to_int (pAudioType.samplesPerSecond.getD 0)
      channels := UINT32_to_int (pAudioType.numChannels.getD 0) }
  | _, _ => { hasAudio := false, audioCodec := "", sampleRate := 0, channels := 0 }

/-- Whether a `GetCurrentMediaType` reply passes the test `SUCCEEDED(hr) && pType`. -/
def obtained (reply : HRESULT × Option MediaType) : Bool :=
  SUCCEEDED reply.1 && reply.2.isSome

/-- The framework calls of a descriptor probe: the request, and the `Release` made
inside the `if (SUCCEEDED(hr) && pType)` block. -/
def probeEvents (site : CallSite) (reply : HRESULT × Option MediaType) : List MFEvent :=
  if obtained reply then
    [MFEvent.GetCurrentMediaType site true, MFEvent.MediaTypeRelease site]
  else [MFEvent.GetCurrentMediaType site false]

/-- The framework calls of the duration section: the request, and `PropVariantClear`
inside the `if (SUCCEEDED(hr))` block. -/
def durationEvents (reply : HRESULT × Nat) : List MFEvent :=
  if SUCCEEDED reply.1 then
    [MFEvent.GetPresentationAttribute reply.1, MFEvent.PropVariantClear]
  else [MFEvent.GetPresentationAttribute reply.1]

/-- The stream-count loop (lines 166-177), from the current `streamIndex` and
`streamCount`: the final counter and the framework calls made, or `none` when `fuel`
iterations have not reached the `break`. -/
def countStreams (pReader : SourceReader) :
    Nat → Nat → Int → Option (Int × List MFEvent)
  | 0, _, _ => none
  | fuel + 1, streamIndex, streamCount =>
    let reply := pReader.GetCurrentMediaType streamIndex
    if FAILED reply.1 then
      some (streamCount, [MFEvent.GetCurrentMediaType (CallSite.streamLoop streamIndex) false])
    else
      match reply.2 with
      | some _ =>
        match countStreams pReader fuel (DWORD_increment streamIndex)
            (int_increment streamCount) with
        | some (n, log) =>
          some (n, MFEvent.GetCurrentMediaType (CallSite.streamLoop streamIndex) true ::
            MFEvent.MediaTypeRelease (CallSite.streamLoop streamIndex) :: log)
        | none => none
      | none =>
        match countStreams pReader fuel (DWORD_increment streamIndex) streamCount with
        | some (n, log) =>
          some (n, MFEvent.GetCurrentMediaType (CallSite.streamLoop streamIndex) false :: log)
        | none => none

/-- The members written into the `data` object (lines 185-202), in order; the three
audio members are written only under `if (hasAudio)`. -/
def dataMembers (video : VideoFields) (durationMs : Int) (audio : AudioFields)
    (container : String) (streamCount : Int) : List (String × JsonValue) :=
  [("width", JsonValue.int video.width),
   ("height", JsonValue.int video.height),
   ("duration", JsonValue.int durationMs),
   ("codec", JsonValue.str video.codec),
   ("bitrate", JsonValue.int video.bitrate),
   ("fps", JsonValue.num video.fps),
   ("rotation", JsonValue.int video.rotation),
   ("container", JsonValue.str container)] ++
  (if audio.hasAudio then
    [("audioCodec", JsonValue.str audio.audioCodec),
     ("sampleRate", JsonValue.int audio.sampleRate),
     ("channels", JsonValue.int audio.channels)]
   else []) ++
  [("hasAudio", JsonValue.bool audio.hasAudio),
   ("hasSubtitles", JsonValue.bool false),
   ("streamCount", JsonValue.int streamCount)]

/-- The success payload of lines 183-205. -/
def successPayload (video : VideoFields) (durationMs : Int) (audio : AudioFields)
    (container : String) (streamCount : Int) : Payload :=
  [("success", JsonMember.value (JsonValue.bool true)),
   ("data", JsonMember.object (dataMembers video durationMs audio container streamCount))]

/-! ## The text written to the stream -/

/-- The text lines 183-205 write to the `std::ostringstream`, one `<<` chain per line. -/
def successText (fmt : DoubleVal → String) (video : VideoFields) (durationMs : Int)
    (audio : AudioFields) (container : String) (streamCount : Int) : String :=
  let json := "\x7b\"success\":true,\"data\":\x7b"
  let json := json ++ "\"width\":" ++ toString video.width ++ ","
  let json := json ++ "\"height\":" ++ toString video.height ++ ","
  let json := json ++ "\"duration\":" ++ toString durationMs ++ ","
  let json := json ++ "\"codec\":\"" ++ video.codec ++ "\","
  let json := json ++ "\"bitrate\":" ++ toString video.bitrate ++ ","
  let json := json ++ "\"fps\":" ++ fmt video.fps ++ ","
  let json := json ++ "\"rotation\":" ++ toString video.rotation ++ ","
  let json := json ++ "\"container\":\"" ++ container ++ "\","
  let json :=
    if audio.hasAudio then
      json ++ "\"audioCodec\":\"" ++ audio.audioCodec ++ "\"," ++
        "\"sampleRate\":" ++ toString audio.sampleRate ++ "," ++
        "\"channels\":" ++ toString audio.channels ++ ","
    else json
  let json := json ++ "\"hasAudio\":" ++ (if audio.hasAudio then "true" else "false") ++ ","
  let json := json ++ "\"hasSubtitles\":false,"
  let json := json ++ "\"streamCount\":" ++ toString streamCount
  json ++ "\x7d\x7d"

/-! ## The function -/

/-- What a call of `ExtractVideoMetadata` leaves behind: the payload returned and the
framework calls made, in order. -/
structure Extraction where
  json : Payload
  log : List MFEvent
deriving DecidableEq

/-- The function `ExtractVideoMetadata` (lines 53-206) against the framework replies
`mf`. The result is `none` when the stream-count loop has not ended within `fuel`
iterations. -/
def ExtractVideoMetadata (mf : MediaFoundation) (fuel : Nat) (path : String) :
    Option Extraction :=
  let hr := mf.MFStartup
  if FAILED hr then
    some { json := failurePayload "Failed to initialize Media Foundation"
           log := [MFEvent.MFStartup hr] }
  else
    let wpath := StringToWString path
    let created := mf.MFCreateSourceReaderFromURL (c_str wpath)
    if FAILED created.1 then
      some { json := failurePayload "Failed to open video file"
             log := [MFEvent.MFStartup hr,
                     MFEvent.MFCreateSourceReaderFromURL (c_str wpath) created.1,
                     MFEvent.MFShutdown] }
    else
      let pReader := created.2
      let videoReply := pReader.GetCurrentMediaType MF_SOURCE_READER_FIRST_VIDEO_STREAM
      let durationReply := pReader.GetPresentationAttribute
      let audioReply := pReader.GetCurrentMediaType MF_SOURCE_READER_FIRST_AUDIO_STREAM
      let container := GetFileExtension wpath
      match countStreams pReader fuel 0 0 with
      | none => none
      | some (streamCount, loopLog) =>
        some { json := successPayload (readVideo videoReply) (readDuration durationReply)
                 (readAudio audioReply) container streamCount
               log := [MFEvent.MFStartup hr,
                       MFEvent.MFCreateSourceReaderFromURL (c_str wpath) created.1] ++
                 probeEvents CallSite.videoProbe videoReply ++
                 durationEvents durationReply ++
                 probeEvents CallSite.audioProbe audioReply ++
                 loopLog ++
                 [MFEvent.ReaderRelease, MFEvent.MFShutdown] }

/-! ## `SmartVideoInfoPlugin::HandleMethodCall` (lines 232-291) -/

/-- The `flutter::EncodableValue` variant: the alternatives a method call can carry.
`typedData` stands for the byte, integer and float array alternatives. -/
inductive EncodableValue
  | null
  | bool (b : Bool)
  | int32 (v : Int)
  | int64 (v : Int)
  | double (d : DoubleVal)
  | string (s : String)
  | typedData (items : List Int)
  | list (items : List EncodableValue)
  | map (entries : List (EncodableValue × EncodableValue))

/-- The lookup `arguments->find(flutter::EncodableValue(key))` in an `EncodableMap`:
the value of the entry whose key is the string `key`. -/
def EncodableMap_find (key : String) :
    List (EncodableValue × EncodableValue) → Option EncodableValue
  | [] => none
  | (EncodableValue.string k, v) :: rest =>
    if k = key then some v else EncodableMap_find key rest
  | _ :: rest => EncodableMap_find key rest

/-- What the handler reports through `flutter::MethodResult`. -/
inductive MethodResult
  | Success (value : EncodableValue)
  | Error (code : String) (message : String)
  | NotImplemented

/-- The `for` loop of lines 278-284 over the elements of `paths`: the list `results`,
or `none` when some extraction has not returned within `fuel` loop iterations. -/
def getBatchResults (fmt : DoubleVal → String) (mf : MediaFoundation) (fuel : Nat) :
    List EncodableValue → Option (List EncodableValue)
  | [] => some []
  | EncodableValue.string path :: rest =>
    match ExtractVideoMetadata mf fuel path with
    | none => none
    | some r =>
      match getBatchResults fmt mf fuel rest with
      | none => none
      | some results => some (EncodableValue.string (r.json.render fmt) :: results)
  | _ :: rest => getBatchResults fmt mf fuel rest

/-- The method `SmartVideoInfoPlugin::HandleMethodCall` (lines 232-291). `arguments` is
`none` for a null argument pointer. -/
def HandleMethodCall (fmt : DoubleVal → String) (mf : MediaFoundation) (fuel : Nat)
    (method_name : String) (arguments : Option EncodableValue) : Option MethodResult :=
  if method_name = "getInfo" then
    match arguments with
    | some (EncodableValue.map entries) =>
      match EncodableMap_find "path" entries with
      | none => some (MethodResult.Error "INVALID_ARGUMENT" "Path is required")
      | some (EncodableValue.string path) =>
        match ExtractVideoMetadata mf fuel path with
        | none => none
        | some r => some (MethodResult.Success (EncodableValue.string (r.json.render fmt)))
      | some _ => some (MethodResult.Error "INVALID_ARGUMENT" "Path must be a string")
    | _ => some (MethodResult.Error "INVALID_ARGUMENT" "Arguments must be a map")
  else if method_name = "getBatch" then
    match arguments with
    | some (EncodableValue.map entries) =>
      match EncodableMap_find "paths" entries with
      | none => some (MethodResult.Error "INVALID_ARGUMENT" "Paths list is required")
      | some (EncodableValue.list paths) =>
        if paths.isEmpty then
          some (MethodResult.Error "INVALID_ARGUMENT" "Paths must be a non-empty list")
        else
          match getBatchResults fmt mf fuel paths with
          | none => none
          | some results => some (MethodResult.Success (EncodableValue.list results))
      | some _ => some (MethodResult.Error "INVALID_ARGUMENT" "Paths must be a non-empty list")
    | _ => some (MethodResult.Error "INVALID_ARGUMENT" "Arguments must be a map")
  else some MethodResult.NotImplemented

/-! ## Names for the replies a call receives -/

/-- The reader that the open step of `ExtractVideoMetadata` creates for `path`. -/
def openedReader (mf : MediaFoundation) (path : String) : SourceReader :=
  (mf.MFCreateSourceReaderFromURL (c_str (StringToWString path))).2

/-- The status of the open step of `ExtractVideoMetadata` for `path`. -/
def openStatus (mf : MediaFoundation) (path : String) : HRESULT :=
  (mf.MFCreateSourceReaderFromURL (c_str (StringToWString path))).1

/-- The reply to the video descriptor probe (line 73). -/
def videoReply (mf : MediaFoundation) (path : String) : HRESULT × Option MediaType :=
  (openedReader mf path).GetCurrentMediaType MF_SOURCE_READER_FIRST_VIDEO_STREAM

/-- The reply to the audio descriptor probe (line 135). -/
def audioReply (mf : MediaFoundation) (path : String) : HRESULT × Option MediaType :=
  (openedReader mf path).GetCurrentMediaType MF_SOURCE_READER_FIRST_AUDIO_STREAM

/-- The reply to the duration request (lines 120-121). -/
def durationReply (mf : MediaFoundation) (path : String) : HRESULT × Nat :=
  (openedReader mf path).GetPresentationAttribute


/-! ## The stream-count loop in closed form -/

/-- The request at stream index `n` fails and no request at a smaller index does. -/
def firstFailure (pReader : SourceReader) (n : Nat) : Prop :=
  FAILED (pReader.GetCurrentMediaType n).1 = true ∧
  ∀ i, i < n → FAILED (pReader.GetCurrentMediaType i).1 = false

/-- The stream-count loop reaches its `break` within `fuel` iterations: the request
fails at some `DWORD` index below `fuel`. -/
def enumerationEnds (pReader : SourceReader) (fuel : Nat) : Prop :=
  ∃ i, i < 2 ^ 32 ∧ i < fuel ∧ FAILED (pReader.GetCurrentMediaType i).1 = true

/-- The number of indices among `k, ..., k + d - 1` at which the reader hands out a
non-NULL descriptor. -/
def descriptorCount (pReader : SourceReader) : Nat → Nat → Nat
  | _, 0 => 0
  | k, d + 1 =>
    (if (pReader.GetCurrentMediaType k).2.isSome then 1 else 0) +
      descriptorCount pReader (k + 1) d

/-- The framework calls of the loop when it runs over the indices `k, ..., k + d - 1`
and meets the failing request at `k + d`. -/
def loopEvents (pReader : SourceReader) : Nat → Nat → List MFEvent
  | k, 0 => [MFEvent.GetCurrentMediaType (CallSite.streamLoop k) false]
  | k, d + 1 =>
    (if (pReader.GetCurrentMediaType k).2.isSome then
      [MFEvent.GetCurrentMediaType (CallSite.streamLoop k) true,
       MFEvent.MediaTypeRelease (CallSite.streamLoop k)]
     else [MFEvent.GetCurrentMediaType (CallSite.streamLoop k) false]) ++
      loopEvents pReader (k + 1) d

/-! ## Sample frameworks -/

/-- A video descriptor: 1920x1080 at 30000/1001 frames per second, H.264. -/
def sampleVideoType : MediaType :=
  { frameSize := some (1920, 1080), frameRate := some (30000, 1001),
    avgBitrate := some 5000000, subtype := some GUID.MFVideoFormat_H264,
    samplesPerSecond := none, numChannels := none }

/-- An audio descriptor: AAC, 48000 samples per second, two channels. -/
def sampleAudioType : MediaType :=
  { frameSize := none, frameRate := none, avgBitrate := none,
    subtype := some GUID.MFAudioFormat_AAC,
    samplesPerSecond := some 48000, numChannels := some 2 }

/-- The failure status `MF_E_INVALIDSTREAMNUMBER`. -/
def MF_E_INVALIDSTREAMNUMBER : HRESULT := -1072875853

/-- The failure status for a file that does not exist, `0x80070002`. -/
def E_FILE_NOT_FOUND : HRESULT := -2147024894

/-- A reader over a file with a video stream at index 0 and an audio stream at index 1;
the duration is ten seconds. -/
def sampleReader : SourceReader :=
  { currentMediaType := fun i =>
      if i = 0 ∨ i = MF_SOURCE_READER_FIRST_VIDEO_STREAM then (0, some sampleVideoType)
      else if i = 1 ∨ i = MF_SOURCE_READER_FIRST_AUDIO_STREAM then (0, some sampleAudioType)
      else (MF_E_INVALIDSTREAMNUMBER, none)
    presentationDuration := (0, 100000000) }

/-- A framework that starts, opens `valid.mp4` with `sampleReader` and fails to open
every other URL. -/
def sampleFramework : MediaFoundation :=
  { MFStartup := 0
    MFCreateSourceReaderFromURL := fun url =>
      if url = "valid.mp4".data then (0, sampleReader) else (E_FILE_NOT_FOUND, sampleReader) }

/-- A reader that answers every stream index with a descriptor. -/
def endlessReader : SourceReader :=
  { currentMediaType := fun _ => (0, some sampleVideoType)
    presentationDuration := (0, 100000000) }

/-- A framework whose readers answer every stream index with a descriptor. -/
def endlessFramework : MediaFoundation :=
  { MFStartup := 0, MFCreateSourceReaderFromURL := fun _ => (0, endlessReader) }

/-- A reader over a file whose only stream, at index 0, is a video stream with the
descriptor `videoType`; the duration is ten seconds. -/
def videoOnlyReader (videoType : MediaType) : SourceReader :=
  { currentMediaType := fun i =>
      if i = 0 ∨ i = MF_SOURCE_READER_FIRST_VIDEO_STREAM then (0, some videoType)
      else (MF_E_INVALIDSTREAMNUMBER, none)
    presentationDuration := (0, 100000000) }

/-- A framework that starts and opens every URL with the given reader. -/
def frameworkOpening (pReader : SourceReader) : MediaFoundation :=
  { MFStartup := 0, MFCreateSourceReaderFromURL := fun _ => (0, pReader) }

/-- A video descriptor whose `MF_MT_SUBTYPE` cannot be read. -/
def untypedVideoType : MediaType := { sampleVideoType with subtype := none }

/-- A video descriptor whose `MF_MT_SUBTYPE` is `MFVideoFormat_HEVC`. -/
def hevcVideoType : MediaType :=
  { sampleVideoType with subtype := some GUID.MFVideoFormat_HEVC }

/-- A video descriptor that reports a frame width of `2 ^ 31`. -/
def wideVideoType : MediaType := { sampleVideoType with frameSize := some (2147483648, 1080) }

/-- A reader that answers index 0 with success and a NULL descriptor, index 1 with a
descriptor, and fails at every other index. -/
def nullDescriptorReader : SourceReader :=
  { currentMediaType := fun i =>
      if i = 0 then (0, none)
      else if i = 1 then (0, some sampleVideoType)
      else (MF_E_INVALIDSTREAMNUMBER, none)
    presentationDuration := (0, 100000000) }

/-- Whether a text contains a backslash or a space, the two characters after which
`PathFindExtensionW` forgets the `.` it has seen. -/
def hasSeparator (l : List Char) : Bool :=
  l.any (fun c => decide (c = Char.ofNat 92 ∨ c = ' '))

/-! ## The handles a call is handed, in closed form -/

/-- The descriptor a probe is handed, if any. -/
def probeHandles (site : CallSite) (reply : HRESULT × Option MediaType) : List Handle :=
  if obtained reply then [Handle.mediaType site] else []

/-- The `PROPVARIANT` contents the duration request hands out, if any. -/
def durationHandles (reply : HRESULT × Nat) : List Handle :=
  if SUCCEEDED reply.1 then [Handle.propVariant] else []

/-- The descriptors the loop is handed over the indices `k, ..., k + d - 1`, latest
first. -/
def loopHandles (pReader : SourceReader) : Nat → Nat → List Handle
  | _, 0 => []
  | k, d + 1 =>
    loopHandles pReader (k + 1) d ++
      (if (pReader.GetCurrentMediaType k).2.isSome then
        [Handle.mediaType (CallSite.streamLoop k)]
       else [])

/-- The descriptors and `PROPVARIANT` contents a successful call is handed between the
open step and the release of the reader, latest first, when the loop meets its first
failing request at index `n`. -/
def callHandles (mf : MediaFoundation) (path : String) (n : Nat) : List Handle :=
  loopHandles (openedReader mf path) 0 n ++
    (probeHandles CallSite.audioProbe (audioReply mf path) ++
      (durationHandles (durationReply mf path) ++
        probeHandles CallSite.videoProbe (videoReply mf path)))

/-! ## The batch reply in closed form -/

/-- The elements of a list of values that are strings, in their original order. -/
def stringElements : List EncodableValue → List String
  | [] => []
  | EncodableValue.string s :: rest => s :: stringElements rest
  | _ :: rest => stringElements rest

/-- The extractor run on each path of a list in turn, each result serialized; `none`
when some run has not returned within `fuel` loop iterations. -/
def extractAll (fmt : DoubleVal → String) (mf : MediaFoundation) (fuel : Nat) :
    List String → Option (List EncodableValue)
  | [] => some []
  | path :: rest =>
    match ExtractVideoMetadata mf fuel path with
    | none => none
    | some r =>
      match extractAll fmt mf fuel rest with
      | none => none
      | some results => some (EncodableValue.string (r.json.render fmt) :: results)

/-- A stand-in for the stream formatting of a `double`. -/
def sampleFormat : DoubleVal → String := fun _ => "29.97"

/-- The record the sample framework returns for a path within ten loop iterations (the
empty payload if it returned none). -/
def sampleRecord (path : String) : Extraction :=
  match ExtractVideoMetadata sampleFramework 10 path with
  | some r => r
  | none => { json := [], log := [] }

/-! ## Reading the returned text -/

/-- Whether a character may stand in a JSON text as it is: it is not a backslash and
not a control character. -/
def rawOk (c : Char) : Bool := c != Char.ofNat 92 && decide (32 ≤ c.toNat)

/-- Whether a character may stand unescaped inside a JSON string: it may stand as it is
and is not a double quote. -/
def jsonPlain (c : Char) : Bool := rawOk c && c != Char.ofNat 34

/-- A text cut at its double quotes: the piece before the first quote, and the later
pieces in order (a string literal, the text after it, the next literal, ...). -/
def cutAtQuotes : List Char → List Char × List (List Char)
  | [] => ([], [])
  | c :: cs =>
    if c = Char.ofNat 34 then ([], (cutAtQuotes cs).1 :: (cutAtQuotes cs).2)
    else (c :: (cutAtQuotes cs).1, (cutAtQuotes cs).2)

/-- The pieces taken two at a time: each string literal with the text that follows its
closing quote up to the next quote. -/
def pairUp : List (List Char) → List (List Char × List Char)
  | s :: p :: rest => (s, p) :: pairUp rest
  | _ => []

/-- The string literals of a text, each with the text that follows it. -/
def literals (text : List Char) : List (List Char × List Char) :=
  pairUp (cutAtQuotes text).2

/-- The member keys of a text: the string literals directly followed by a colon. -/
def memberKeys (text : List Char) : List (List Char) :=
  (literals text).filterMap (fun sp => if sp.2.head? = some ':' then some sp.1 else none)

/-- The string-valued members among a list of literals, `pending` being a key whose
colon has just been read: a literal followed by exactly a colon is a key, and the
literal that comes next is its value. -/
def stringMembersFrom :
    Option (List Char) → List (List Char × List Char) → List (List Char × List Char)
  | _, [] => []
  | some key, vq :: rest => (key, vq.1) :: stringMembersFrom none rest
  | none, kp :: rest =>
    if kp.2 = [':'] then stringMembersFrom (some kp.1) rest else stringMembersFrom none rest

/-- The string-valued members among a list of literals. -/
def stringMembers (lits : List (List Char × List Char)) : List (List Char × List Char) :=
  stringMembersFrom none lits

/-- The text has a member under `key`. -/
def textHasKey (text : String) (key : String) : Bool :=
  decide (key.data ∈ memberKeys text.data)

/-- The text has the string literal `key` followed, up to the next quote, by exactly
`following`: for a member with a number or boolean value, the colon, the value and the
separator. -/
def textHasMember (text : String) (key : String) (following : String) : Bool :=
  decide ((key.data, following.data) ∈ literals text.data)

/-- The text has a member under `key` whose value is the string literal `value`. -/
def textHasStringMember (text : String) (key : String) (value : String) : Bool :=
  decide ((key.data, value.data) ∈ stringMembers (literals text.data))

/-- No character of the text is a control character or a backslash, so no string
literal of it needs an escape. -/
def isPlainText (text : String) : Bool := text.data.all rawOk

/-- The returned text is a success record: it needs no escape, `success` is true and a
`data` member is present. -/
def isSuccessText (text : String) : Bool :=
  isPlainText text && textHasMember text "success" ":true," && textHasKey text "data"

/-- The returned text is a failure record: it needs no escape, `success` is false and
an `error` member is present. -/
def isFailureText (text : String) : Bool :=
  isPlainText text && textHasMember text "success" ":false," && textHasKey text "error"

/-- The string literals of the success text, each with the text that follows it, when
none of the texts written into it holds a double quote. -/
def successLiterals (fmt : DoubleVal → String) (video : VideoFields) (durationMs : Int)
    (audio : AudioFields) (container : String) (streamCount : Int) :
    List (List Char × List Char) :=
  [("success".data, ":true,".data),
   ("data".data, ":\x7b".data),
   ("width".data, ':' :: ((toString video.width).data ++ [','])),
   ("height".data, ':' :: ((toString video.height).data ++ [','])),
   ("duration".data, ':' :: ((toString durationMs).data ++ [','])),
   ("codec".data, [':']),
   (video.codec.data, [',']),
   ("bitrate".data, ':' :: ((toString video.bitrate).data ++ [','])),
   ("fps".data, ':' :: ((fmt video.fps).data ++ [','])),
   ("rotation".data, ':' :: ((toString video.rotation).data ++ [','])),
   ("container".data, [':']),
   (container.data, [','])] ++
  (if audio.hasAudio then
    [("audioCodec".data, [':']),
     (audio.audioCodec.data, [',']),
     ("sampleRate".data, ':' :: ((toString audio.sampleRate).data ++ [','])),
     ("channels".data, ':' :: ((toString audio.channels).data ++ [',']))]
   else []) ++
  [("hasAudio".data, (if audio.hasAudio then ":true," else ":false,").data),
   ("hasSubtitles".data, ":false,".data),
   ("streamCount".data, ':' :: ((toString streamCount).data ++ "\x7d\x7d".data))]

/-! ## Paths whose extension holds characters that JSON does not take as they are -/

/-- A path whose extension closes the container string and the `data` object and goes
on with an `error` member. -/
def injectedErrorPath : String :=
  "clip.mp4\"\x7d,\"error\":\"boom\",\"d\":\x7b\"a\":\""

/-- A path whose extension closes the container string and goes on with the three audio
members. -/
def injectedAudioPath : String :=
  "clip.mp4\",\"audioCodec\":\"aac\",\"sampleRate\":44100,\"channels\":2,\"x\":\""

/-- A path whose extension holds a tab character. -/
def tabPath : String := "clip.m\tp4"

/-! ## Auxiliary facts -/

theorem StringToWString_eq (str : String) : StringToWString str = str.data := by
  unfold StringToWString
  cases h : str.data <;> simp

theorem WStringToString_eq (wstr : List Char) : WStringToString wstr = String.mk wstr := by
  unfold WStringToString
  cases wstr <;> simp

/-- The three shapes of a returned extraction. -/
theorem ExtractVideoMetadata_cases (mf : MediaFoundation) (fuel : Nat) (path : String)
    (r : Extraction) (h : ExtractVideoMetadata mf fuel path = some r) :
    (FAILED mf.MFStartup = true ∧
      r = { json := failurePayload "Failed to initialize Media Foundation"
            log := [MFEvent.MFStartup mf.MFStartup] }) ∨
    (FAILED mf.MFStartup = false ∧ FAILED (openStatus mf path) = true ∧
      r = { json := failurePayload "Failed to open video file"
            log := [MFEvent.MFStartup mf.MFStartup,
                    MFEvent.MFCreateSourceReaderFromURL (c_str (StringToWString path))
                      (openStatus mf path),
                    MFEvent.MFShutdown] }) ∨
    (FAILED mf.MFStartup = false ∧ FAILED (openStatus mf path) = false ∧
      ∃ streamCount loopLog,
        countStreams (openedReader mf path) fuel 0 0 = some (streamCount, loopLog) ∧
        r = { json := successPayload (readVideo (videoReply mf path))
                (readDuration (durationReply mf path)) (readAudio (audioReply mf path))
                (GetFileExtension (StringToWString path)) streamCount
              log := [MFEvent.MFStartup mf.MFStartup,
                      MFEvent.MFCreateSourceReaderFromURL (c_str (StringToWString path))
                        (openStatus mf path)] ++
                probeEvents CallSite.videoProbe (videoReply mf path) ++
                durationEvents (durationReply mf path) ++
                probeEvents CallSite.audioProbe (audioReply mf path) ++
                loopLog ++
                [MFEvent.ReaderRelease, MFEvent.MFShutdown] }) := by
  unfold ExtractVideoMetadata at h
  by_cases h1 : FAILED mf.MFStartup = true
  · left
    simp only [h1, if_true] at h
    exact ⟨h1, (Option.some.inj h).symm⟩
  · right
    have h1f : FAILED mf.MFStartup = false := by simpa using h1
    simp only [h1f] at h
    by_cases h2 : FAILED (openStatus mf path) = true
    · left
      have h2x : FAILED (mf.MFCreateSourceReaderFromURL (c_str (StringToWString path))).1 = true := h2
      simp only [h2x, if_true] at h
      exact ⟨h1f, h2, (Option.some.inj h).symm⟩
    · right
      have h2f : FAILED (openStatus mf path) = false := by simpa using h2
      have h2x : FAILED (mf.MFCreateSourceReaderFromURL (c_str (StringToWString path))).1 = false := h2f
      simp only [h2x] at h
      refine ⟨h1f, h2f, ?_⟩
      cases hc : countStreams (openedReader mf path) fuel 0 0 with
      | none =>
        have hc2 : countStreams (mf.MFCreateSourceReaderFromURL (c_str (StringToWString path))).2 fuel 0 0 = none := hc
        simp [hc2] at h
      | some p =>
        obtain ⟨sc, ll⟩ := p
        have hc2 : countStreams (mf.MFCreateSourceReaderFromURL (c_str (StringToWString path))).2 fuel 0 0 = some (sc, ll) := hc
        simp only [hc2] at h
        exact ⟨sc, ll, rfl, (Option.some.inj h).symm⟩

theorem int_increment_count (m : Nat) :
    int_increment (UINT32_to_int m) = UINT32_to_int (m + 1) := by
  unfold int_increment UINT32_to_int
  split_ifs <;> omega

theorem int_increment_iterate (m : Nat) : int_increment^[m] 0 = UINT32_to_int m := by
  induction m with
  | zero => decide
  | succ m ih => rw [Function.iterate_succ_apply', ih, int_increment_count]

theorem UINT32_to_int_small (v : Nat) (h : v < 2 ^ 31) : UINT32_to_int v = (v : Int) := by
  unfold UINT32_to_int
  split_ifs <;> omega

/-- The loop in closed form: started at index `k` with the failing request `d` indices
further on, it returns once `fuel` exceeds `d`. -/
theorem countStreams_spec (pReader : SourceReader) :
    ∀ (d k : Nat) (c : Int) (fuel : Nat), k + d < 2 ^ 32 →
      (∀ i, k ≤ i → i < k + d → FAILED (pReader.GetCurrentMediaType i).1 = false) →
      FAILED (pReader.GetCurrentMediaType (k + d)).1 = true → d < fuel →
      countStreams pReader fuel k c =
        some (int_increment^[descriptorCount pReader k d] c, loopEvents pReader k d) := by
  intro d
  induction d with
  | zero =>
    intro k c fuel _ _ hfail hfuel
    obtain ⟨f, rfl⟩ : ∃ f, fuel = f + 1 := ⟨fuel - 1, by omega⟩
    simp only [Nat.add_zero] at hfail
    simp [countStreams, hfail, descriptorCount, loopEvents]
  | succ d ih =>
    intro k c fuel hk hok hfail hfuel
    obtain ⟨f, rfl⟩ : ∃ f, fuel = f + 1 := ⟨fuel - 1, by omega⟩
    have hk0 : FAILED (pReader.GetCurrentMediaType k).1 = false := hok k (le_refl k) (by omega)
    have hinc : DWORD_increment k = k + 1 := by
      unfold DWORD_increment
      exact Nat.mod_eq_of_lt (by omega)
    have hfail2 : FAILED (pReader.GetCurrentMediaType (k + 1 + d)).1 = true := by
      have : k + 1 + d = k + (d + 1) := by omega
      rw [this]; exact hfail
    have hok2 : ∀ i, k + 1 ≤ i → i < k + 1 + d →
        FAILED (pReader.GetCurrentMediaType i).1 = false :=
      fun i h1 h2 => hok i (by omega) (by omega)
    unfold countStreams
    simp only [hk0, hinc]
    cases hp : (pReader.GetCurrentMediaType k).2 with
    | none =>
      rw [ih (k + 1) c f (by omega) hok2 hfail2 (by omega)]
      simp [descriptorCount, loopEvents, hp]
    | some pStreamType =>
      rw [ih (k + 1) (int_increment c) f (by omega) hok2 hfail2 (by omega)]
      simp [descriptorCount, loopEvents, hp, Nat.add_comm 1, Function.iterate_succ_apply]

/-- When no request ever fails, the loop never reaches its `break`. -/
theorem countStreams_none (pReader : SourceReader)
    (hok : ∀ i, FAILED (pReader.GetCurrentMediaType i).1 = false) :
    ∀ (fuel k : Nat) (c : Int), countStreams pReader fuel k c = none := by
  intro fuel
  induction fuel with
  | zero => intro k c; rfl
  | succ f ih =>
    intro k c
    unfold countStreams
    simp only [hok k]
    cases hp : (pReader.GetCurrentMediaType k).2 <;> simp [ih]

/-- A failing request at some index gives a first failing index. -/
theorem firstFailure_of_enumerationEnds (pReader : SourceReader) (fuel : Nat)
    (h : enumerationEnds pReader fuel) :
    ∃ n, n < 2 ^ 32 ∧ n < fuel ∧ firstFailure pReader n := by
  obtain ⟨i, hi32, hif, hfail⟩ := h
  have hex : ∃ n, FAILED (pReader.GetCurrentMediaType n).1 = true := ⟨i, hfail⟩
  refine ⟨Nat.find hex, ?_, ?_, Nat.find_spec hex, ?_⟩
  · exact lt_of_le_of_lt (Nat.find_min' hex hfail) hi32
  · exact lt_of_le_of_lt (Nat.find_min' hex hfail) hif
  · intro j hj
    have := Nat.find_min hex hj
    simpa using this

/-- The loop as `ExtractVideoMetadata` starts it, in closed form. -/
theorem countStreams_firstFailure (pReader : SourceReader) (fuel n : Nat)
    (hn : n < 2 ^ 32) (hfuel : n < fuel) (hff : firstFailure pReader n) :
    countStreams pReader fuel 0 0 =
      some (UINT32_to_int (descriptorCount pReader 0 n), loopEvents pReader 0 n) := by
  have h := countStreams_spec pReader n 0 0 fuel (by omega)
    (fun i _ hi => hff.2 i (by omega)) (by simpa using hff.1) hfuel
  rw [h, int_increment_iterate]

theorem ExtractVideoMetadata_init_failure (mf : MediaFoundation) (fuel : Nat) (path : String)
    (hinit : FAILED mf.MFStartup = true) :
    ExtractVideoMetadata mf fuel path =
      some { json := failurePayload "Failed to initialize Media Foundation"
             log := [MFEvent.MFStartup mf.MFStartup] } := by
  unfold ExtractVideoMetadata
  simp only [hinit, if_true]

theorem ExtractVideoMetadata_open_failure (mf : MediaFoundation) (fuel : Nat) (path : String)
    (hinit : FAILED mf.MFStartup = false) (hopen : FAILED (openStatus mf path) = true) :
    ExtractVideoMetadata mf fuel path =
      some { json := failurePayload "Failed to open video file"
             log := [MFEvent.MFStartup mf.MFStartup,
                     MFEvent.MFCreateSourceReaderFromURL (c_str (StringToWString path))
                       (openStatus mf path),
                     MFEvent.MFShutdown] } := by
  have hopen2 : FAILED (mf.MFCreateSourceReaderFromURL (c_str (StringToWString path))).1 = true :=
    hopen
  unfold ExtractVideoMetadata
  simp only [hinit, hopen2, if_true]
  rfl

theorem ExtractVideoMetadata_success (mf : MediaFoundation) (fuel : Nat) (path : String)
    (n : Nat) (hinit : FAILED mf.MFStartup = false) (hopen : FAILED (openStatus mf path) = false)
    (hn : n < 2 ^ 32) (hfuel : n < fuel) (hff : firstFailure (openedReader mf path) n) :
    ExtractVideoMetadata mf fuel path =
      some { json := successPayload (readVideo (videoReply mf path))
               (readDuration (durationReply mf path)) (readAudio (audioReply mf path))
               (GetFileExtension (StringToWString path))
               (UINT32_to_int (descriptorCount (openedReader mf path) 0 n))
             log := [MFEvent.MFStartup mf.MFStartup,
                     MFEvent.MFCreateSourceReaderFromURL (c_str (StringToWString path))
                       (openStatus mf path)] ++
               probeEvents CallSite.videoProbe (videoReply mf path) ++
               durationEvents (durationReply mf path) ++
               probeEvents CallSite.audioProbe (audioReply mf path) ++
               loopEvents (openedReader mf path) 0 n ++
               [MFEvent.ReaderRelease, MFEvent.MFShutdown] } := by
  have hopen2 : FAILED (mf.MFCreateSourceReaderFromURL (c_str (StringToWString path))).1 = false :=
    hopen
  have hc := countStreams_firstFailure (openedReader mf path) fuel n hn hfuel hff
  have hc2 : countStreams (mf.MFCreateSourceReaderFromURL (c_str (StringToWString path))).2
      fuel 0 0 = _ := hc
  unfold ExtractVideoMetadata
  simp only [hinit, hopen2, hc2]
  rfl

/-- A call returns whenever init fails, the open step fails, or the enumeration ends. -/
theorem ExtractVideoMetadata_returns (mf : MediaFoundation) (fuel : Nat) (path : String)
    (h : FAILED mf.MFStartup = true ∨ FAILED (openStatus mf path) = true ∨
      enumerationEnds (openedReader mf path) fuel) :
    ∃ r, ExtractVideoMetadata mf fuel path = some r := by
  by_cases h1 : FAILED mf.MFStartup = true
  · exact ⟨_, ExtractVideoMetadata_init_failure mf fuel path h1⟩
  · have h1f : FAILED mf.MFStartup = false := by simpa using h1
    by_cases h2 : FAILED (openStatus mf path) = true
    · exact ⟨_, ExtractVideoMetadata_open_failure mf fuel path h1f h2⟩
    · have h2f : FAILED (openStatus mf path) = false := by simpa using h2
      rcases h with h | h | h
      · exact absurd h h1
      · exact absurd h h2
      · obtain ⟨n, hn, hfuel, hff⟩ := firstFailure_of_enumerationEnds _ _ h
        exact ⟨_, ExtractVideoMetadata_success mf fuel path n h1f h2f hn hfuel hff⟩

theorem isSuccessRecord_successPayload (video : VideoFields) (durationMs : Int)
    (audio : AudioFields) (container : String) (streamCount : Int) :
    (successPayload video durationMs audio container streamCount).isSuccessRecord = true := by
  simp [successPayload, Payload.isSuccessRecord, Payload.member, List.lookup]

theorem isFailureRecord_successPayload (video : VideoFields) (durationMs : Int)
    (audio : AudioFields) (container : String) (streamCount : Int) :
    (successPayload video durationMs audio container streamCount).isFailureRecord = false := by
  simp [successPayload, Payload.isFailureRecord, Payload.member, List.lookup]

theorem isFailureRecord_failurePayload (message : String) :
    (failurePayload message).isFailureRecord = true := by
  simp [failurePayload, Payload.isFailureRecord, Payload.member, List.lookup]

theorem isSuccessRecord_failurePayload (message : String) :
    (failurePayload message).isSuccessRecord = false := by
  simp [failurePayload, Payload.isSuccessRecord, Payload.member, List.lookup]

theorem dataField_successPayload (video : VideoFields) (durationMs : Int)
    (audio : AudioFields) (container : String) (streamCount : Int) (key : String) :
    (successPayload video durationMs audio container streamCount).dataField key =
      List.lookup key (dataMembers video durationMs audio container streamCount) := by
  simp [successPayload, Payload.dataField, Payload.member, List.lookup]

set_option maxRecDepth 8000 in
/-- The text of the success payload is the text lines 183-205 write to the stream. -/
theorem render_successPayload (fmt : DoubleVal → String) (video : VideoFields)
    (durationMs : Int) (audio : AudioFields) (container : String) (streamCount : Int) :
    (successPayload video durationMs audio container streamCount).render fmt =
      successText fmt video durationMs audio container streamCount := by
  apply String.ext
  cases h : audio.hasAudio <;>
    simp [successPayload, dataMembers, Payload.render, renderOuter, renderMembers,
      JsonMember.render, JsonValue.render, h, String.data_append, successText]

/-- The text of a failure payload is the raw literal of lines 59 and 68 around its
message. -/
theorem render_failurePayload (fmt : DoubleVal → String) (message : String) :
    (failurePayload message).render fmt =
      "\x7b\"success\":false,\"error\":\"" ++ message ++ "\"\x7d" := by
  apply String.ext
  simp [failurePayload, Payload.render, renderOuter, JsonMember.render, JsonValue.render,
    String.data_append]

/-- Without a failing request at any `DWORD` index the loop never reaches its `break`. -/
theorem countStreams_none_of_no_failure (pReader : SourceReader)
    (hok : ∀ i, i < 2 ^ 32 → FAILED (pReader.GetCurrentMediaType i).1 = false) :
    ∀ (fuel k : Nat) (c : Int), k < 2 ^ 32 → countStreams pReader fuel k c = none := by
  intro fuel
  induction fuel with
  | zero => intro k c _; rfl
  | succ f ih =>
    intro k c hk
    have hinc : DWORD_increment k < 2 ^ 32 := by
      unfold DWORD_increment
      exact Nat.mod_lt _ (by norm_num)
    unfold countStreams
    simp only [hok k hk]
    cases hp : (pReader.GetCurrentMediaType k).2 <;> simp [ih _ _ hinc]

/-- With too little fuel to reach the first failing index the loop does not return. -/
theorem countStreams_none_of_fuel (pReader : SourceReader) (n : Nat) (hn : n < 2 ^ 32)
    (hok : ∀ i, i < n → FAILED (pReader.GetCurrentMediaType i).1 = false) :
    ∀ (fuel k : Nat) (c : Int), k + fuel ≤ n → countStreams pReader fuel k c = none := by
  intro fuel
  induction fuel with
  | zero => intro k c _; rfl
  | succ f ih =>
    intro k c hk
    have hinc : DWORD_increment k = k + 1 := by
      unfold DWORD_increment
      exact Nat.mod_eq_of_lt (by omega)
    unfold countStreams
    simp only [hok k (by omega), hinc]
    cases hp : (pReader.GetCurrentMediaType k).2 <;> simp [ih (k + 1) _ (by omega)]

/-- A loop that returns has met a first failing index below the fuel. -/
theorem countStreams_some_inv (pReader : SourceReader) (fuel : Nat) (p : Int × List MFEvent)
    (h : countStreams pReader fuel 0 0 = some p) :
    ∃ n, n < 2 ^ 32 ∧ n < fuel ∧ firstFailure pReader n := by
  by_cases hex : ∃ i, i < 2 ^ 32 ∧ FAILED (pReader.GetCurrentMediaType i).1 = true
  · obtain ⟨i, hi, hfail⟩ := hex
    have hex2 : ∃ n, FAILED (pReader.GetCurrentMediaType n).1 = true := ⟨i, hfail⟩
    have hn32 : Nat.find hex2 < 2 ^ 32 := lt_of_le_of_lt (Nat.find_min' hex2 hfail) hi
    have hmin : ∀ j, j < Nat.find hex2 → FAILED (pReader.GetCurrentMediaType j).1 = false := by
      intro j hj
      have := Nat.find_min hex2 hj
      simpa using this
    refine ⟨Nat.find hex2, hn32, ?_, Nat.find_spec hex2, hmin⟩
    by_contra hlt
    have := countStreams_none_of_fuel pReader (Nat.find hex2) hn32 hmin fuel 0 0 (by omega)
    rw [this] at h
    exact Option.noConfusion h
  · have hok : ∀ i, i < 2 ^ 32 → FAILED (pReader.GetCurrentMediaType i).1 = false := by
      intro i hi
      by_contra hc
      exact hex ⟨i, hi, by simpa using hc⟩
    have := countStreams_none_of_no_failure pReader hok fuel 0 0 (by norm_num)
    rw [this] at h
    exact Option.noConfusion h

/-- The shape of a returned success: the loop has met a first failing index `n`, and
the counter and the calls are those of the closed form. -/
theorem ExtractVideoMetadata_success_inv (mf : MediaFoundation) (fuel : Nat) (path : String)
    (r : Extraction) (h : ExtractVideoMetadata mf fuel path = some r)
    (hinit : FAILED mf.MFStartup = false) (hopen : FAILED (openStatus mf path) = false) :
    ∃ n, n < 2 ^ 32 ∧ n < fuel ∧ firstFailure (openedReader mf path) n ∧
      r = { json := successPayload (readVideo (videoReply mf path))
               (readDuration (durationReply mf path)) (readAudio (audioReply mf path))
               (GetFileExtension (StringToWString path))
               (UINT32_to_int (descriptorCount (openedReader mf path) 0 n))
            log := [MFEvent.MFStartup mf.MFStartup,
                     MFEvent.MFCreateSourceReaderFromURL (c_str (StringToWString path))
                       (openStatus mf path)] ++
               probeEvents CallSite.videoProbe (videoReply mf path) ++
               durationEvents (durationReply mf path) ++
               probeEvents CallSite.audioProbe (audioReply mf path) ++
               loopEvents (openedReader mf path) 0 n ++
               [MFEvent.ReaderRelease, MFEvent.MFShutdown] } := by
  rcases ExtractVideoMetadata_cases mf fuel path r h with ⟨h1, _⟩ | ⟨_, h2, _⟩ | ⟨_, _, sc, ll, hc, _⟩
  · rw [hinit] at h1; exact Bool.noConfusion h1
  · rw [hopen] at h2; exact Bool.noConfusion h2
  · obtain ⟨n, hn, hfuel, hff⟩ := countStreams_some_inv _ _ _ hc
    refine ⟨n, hn, hfuel, hff, ?_⟩
    have := ExtractVideoMetadata_success mf fuel path n hinit hopen hn hfuel hff
    rw [h] at this
    exact Option.some.inj this

theorem lookup_dataMembers (video : VideoFields) (durationMs : Int) (audio : AudioFields)
    (container : String) (streamCount : Int) :
    let m := dataMembers video durationMs audio container streamCount
    List.lookup "width" m = some (JsonValue.int video.width) ∧
    List.lookup "height" m = some (JsonValue.int video.height) ∧
    List.lookup "duration" m = some (JsonValue.int durationMs) ∧
    List.lookup "codec" m = some (JsonValue.str video.codec) ∧
    List.lookup "bitrate" m = some (JsonValue.int video.bitrate) ∧
    List.lookup "fps" m = some (JsonValue.num video.fps) ∧
    List.lookup "container" m = some (JsonValue.str container) ∧
    List.lookup "hasAudio" m = some (JsonValue.bool audio.hasAudio) ∧
    List.lookup "streamCount" m = some (JsonValue.int streamCount) ∧
    List.lookup "audioCodec" m =
      (if audio.hasAudio then some (JsonValue.str audio.audioCodec) else none) ∧
    List.lookup "sampleRate" m =
      (if audio.hasAudio then some (JsonValue.int audio.sampleRate) else none) ∧
    List.lookup "channels" m =
      (if audio.hasAudio then some (JsonValue.int audio.channels) else none) := by
  cases h : audio.hasAudio <;> simp [dataMembers, List.lookup, h]

theorem readVideo_not_obtained (reply : HRESULT × Option MediaType)
    (h : obtained reply = false) :
    readVideo reply =
      { width := 0, height := 0, fps := DoubleVal.finite 0, bitrate := 0, rotation := 0,
        codec := "" } := by
  unfold obtained at h
  unfold readVideo
  cases h1 : SUCCEEDED reply.1 <;> cases h2 : reply.2 <;> simp_all

theorem readAudio_hasAudio (reply : HRESULT × Option MediaType) :
    (readAudio reply).hasAudio = obtained reply := by
  unfold obtained readAudio
  cases h1 : SUCCEEDED reply.1 <;> cases h2 : reply.2 <;> simp

theorem readDuration_failed (reply : HRESULT × Nat) (h : SUCCEEDED reply.1 = false) :
    readDuration reply = 0 := by
  simp [readDuration, h]

/-- A success record is returned whenever init and open succeed and the enumeration
ends. -/
theorem ExtractVideoMetadata_returns_success (mf : MediaFoundation) (fuel : Nat)
    (path : String) (hinit : FAILED mf.MFStartup = false)
    (hopen : FAILED (openStatus mf path) = false)
    (hends : enumerationEnds (openedReader mf path) fuel) :
    ∃ r, ExtractVideoMetadata mf fuel path = some r ∧ r.json.isSuccessRecord = true := by
  obtain ⟨n, hn, hfuel, hff⟩ := firstFailure_of_enumerationEnds _ _ hends
  exact ⟨_, ExtractVideoMetadata_success mf fuel path n hinit hopen hn hfuel hff,
    isSuccessRecord_successPayload _ _ _ _ _⟩

/-- The payload of a returned success record. -/
theorem ExtractVideoMetadata_json_of_success (mf : MediaFoundation) (fuel : Nat)
    (path : String) (r : Extraction) (h : ExtractVideoMetadata mf fuel path = some r)
    (hs : r.json.isSuccessRecord = true) :
    FAILED mf.MFStartup = false ∧ FAILED (openStatus mf path) = false ∧
    ∃ streamCount, r.json = successPayload (readVideo (videoReply mf path))
      (readDuration (durationReply mf path)) (readAudio (audioReply mf path))
      (GetFileExtension (StringToWString path)) streamCount := by
  rcases ExtractVideoMetadata_cases mf fuel path r h with
    ⟨_, rfl⟩ | ⟨_, _, rfl⟩ | ⟨h1, h2, sc, ll, _, rfl⟩
  · simp [isSuccessRecord_failurePayload] at hs
  · simp [isSuccessRecord_failurePayload] at hs
  · exact ⟨h1, h2, sc, rfl⟩

/-- C3: whenever init succeeds and the open step fails, `ExtractVideoMetadata` returns
the failure record with the message "Failed to open video file"; two such runs return
equal payloads whatever their frameworks, paths and failure codes; the text returned is
the same literal; and the only framework calls made are `MFStartup`, the failed
`MFCreateSourceReaderFromURL` and `MFShutdown`: no probe, no duration request and no
stream enumeration is performed. -/
theorem C3_open_failure_is_generic (mf1 mf2 : MediaFoundation) (fuel1 fuel2 : Nat)
    (path1 path2 : String)
    (hinit1 : FAILED mf1.MFStartup = false) (hopen1 : FAILED (openStatus mf1 path1) = true)
    (hinit2 : FAILED mf2.MFStartup = false) (hopen2 : FAILED (openStatus mf2 path2) = true) :
    ∃ r1 r2, ExtractVideoMetadata mf1 fuel1 path1 = some r1 ∧
      ExtractVideoMetadata mf2 fuel2 path2 = some r2 ∧
      r1.json = r2.json ∧
      r1.json = failurePayload "Failed to open video file" ∧
      r1.json.isFailureRecord = true ∧
      r1.json.member "success" = some (JsonMember.value (JsonValue.bool false)) ∧
      r1.json.member "error" =
        some (JsonMember.value (JsonValue.str "Failed to open video file")) ∧
      (∀ fmt, r1.json.render fmt =
        "\x7b\"success\":false,\"error\":\"Failed to open video file\"\x7d") ∧
      r1.log = [MFEvent.MFStartup mf1.MFStartup,
                MFEvent.MFCreateSourceReaderFromURL (c_str (StringToWString path1))
                  (openStatus mf1 path1),
                MFEvent.MFShutdown] :=
  ⟨_, _, ExtractVideoMetadata_open_failure mf1 fuel1 path1 hinit1 hopen1,
    ExtractVideoMetadata_open_failure mf2 fuel2 path2 hinit2 hopen2,
    rfl, rfl, isFailureRecord_failurePayload _, rfl, rfl, fun _ => rfl, rfl⟩

/-- C3 (witness): the sample framework fails to open `missing.mp4` and `broken.avi`. -/
theorem C3_open_failure_is_generic_witness :
    ∃ r1 r2, ExtractVideoMetadata sampleFramework 0 "missing.mp4" = some r1 ∧
      ExtractVideoMetadata sampleFramework 7 "broken.avi" = some r2 ∧
      r1.json = r2.json := by
  obtain ⟨r1, r2, h1, h2, h3, _⟩ := C3_open_failure_is_generic sampleFramework sampleFramework
    0 7 "missing.mp4" "broken.avi" (by decide) (by decide) (by decide) (by decide)
  exact ⟨r1, r2, h1, h2, h3⟩

theorem readVideo_obtained (reply : HRESULT × Option MediaType) (pType : MediaType)
    (h : obtained reply = true) (hp : reply.2 = some pType) :
    readVideo reply =
      { width := UINT32_to_int (pType.frameSize.getD (0, 0)).1
        height := UINT32_to_int (pType.frameSize.getD (0, 0)).2
        fps := frameRate (pType.frameRate.getD (0, 1)).1 (pType.frameRate.getD (0, 1)).2
        bitrate := UINT32_to_int (pType.avgBitrate.getD 0)
        rotation := 0
        codec := match pType.subtype with
          | some subtype => videoCodecName subtype
          | none => "" } := by
  unfold obtained at h
  unfold readVideo
  cases h1 : SUCCEEDED reply.1
  · simp [h1] at h
  · simp [hp]

theorem obtained_cases (reply : HRESULT × Option MediaType) :
    obtained reply = false ∨ ∃ pType, obtained reply = true ∧ reply.2 = some pType := by
  unfold obtained
  cases h1 : SUCCEEDED reply.1 <;> cases h2 : reply.2 <;> simp

theorem videoCodecName_mem (subtype : GUID) :
    videoCodecName subtype ∈ ["h264", "hevc", "vp8", "vp9", "wmv3", "mpeg2", "unknown"] := by
  unfold videoCodecName
  split_ifs <;> simp

theorem videoCodecName_ne_empty (subtype : GUID) : videoCodecName subtype ≠ "" := by
  unfold videoCodecName
  split_ifs <;> decide

theorem frameRate_spec (numerator denominator : Nat) :
    ∃ q : ℚ, frameRate numerator denominator = DoubleVal.finite q ∧
      (denominator = 0 → q = 0) ∧
      (0 < denominator → q = (numerator : ℚ) / (denominator : ℚ)) := by
  unfold frameRate double_div
  rcases Nat.eq_zero_or_pos denominator with h | h
  · subst h
    exact ⟨0, by simp, fun _ => rfl, fun h0 => absurd h0 (lt_irrefl 0)⟩
  · have hne : denominator ≠ 0 := Nat.pos_iff_ne_zero.mp h
    exact ⟨(numerator : ℚ) / (denominator : ℚ), by simp [h, hne],
      fun h0 => absurd h0 hne, fun _ => rfl⟩

/-- C7: in every success record the fps member is a finite number, never the infinity
or NaN that a division by a zero divisor would produce: it is 0 when no video
descriptor is obtained, 0 when the descriptor reports a denominator of 0, 0 when the
frame-rate attribute cannot be read (the variables keep 0 and 1), and the quotient
numerator/denominator when the reported denominator is positive. The frame-rate
computation of lines 89-93 returns 0 for every ratio with denominator 0. Such a record
is returned whenever init and open succeed and the stream enumeration ends. -/
theorem C7_fps_zero_denominator (mf : MediaFoundation) (fuel : Nat) (path : String) :
    (∀ r, ExtractVideoMetadata mf fuel path = some r → r.json.isSuccessRecord = true →
      ∃ q : ℚ,
        r.json.dataField "fps" = some (JsonValue.num (DoubleVal.finite q)) ∧
        (obtained (videoReply mf path) = false → q = 0) ∧
        (∀ pType, obtained (videoReply mf path) = true →
          (videoReply mf path).2 = some pType →
          (∀ numerator denominator, pType.frameRate = some (numerator, denominator) →
            (denominator = 0 → q = 0) ∧
            (0 < denominator → q = (numerator : ℚ) / (denominator : ℚ))) ∧
          (pType.frameRate = none → q = 0))) ∧
    (∀ numerator : Nat, frameRate numerator 0 = DoubleVal.finite 0 ∧
      frameRate numerator 0 ≠ double_div numerator 0) ∧
    (FAILED mf.MFStartup = false → FAILED (openStatus mf path) = false →
      enumerationEnds (openedReader mf path) fuel →
      ∃ r, ExtractVideoMetadata mf fuel path = some r ∧ r.json.isSuccessRecord = true) := by
  refine ⟨?_, ?_, ExtractVideoMetadata_returns_success mf fuel path⟩
  · intro r hr hs
    obtain ⟨_, _, sc, hj⟩ := ExtractVideoMetadata_json_of_success mf fuel path r hr hs
    have hl := lookup_dataMembers (readVideo (videoReply mf path))
      (readDuration (durationReply mf path)) (readAudio (audioReply mf path))
      (GetFileExtension (StringToWString path)) sc
    simp only [] at hl
    obtain ⟨_, _, _, _, _, hf, _⟩ := hl
    rw [hj, dataField_successPayload, hf]
    rcases obtained_cases (videoReply mf path) with hno | ⟨pType, hob, hp⟩
    · rw [readVideo_not_obtained _ hno]
      refine ⟨0, rfl, fun _ => rfl, ?_⟩
      intro pType hob
      rw [hno] at hob
      exact Bool.noConfusion hob
    · rw [readVideo_obtained _ pType hob hp]
      obtain ⟨q, hq, hq0, hqpos⟩ :=
        frameRate_spec (pType.frameRate.getD (0, 1)).1 (pType.frameRate.getD (0, 1)).2
      refine ⟨q, by simp only [hq], ?_, ?_⟩
      · intro hno
        rw [hno] at hob
        exact Bool.noConfusion hob
      · intro pType2 _ hp2
        rw [hp] at hp2
        obtain rfl := Option.some.inj hp2
        constructor
        · intro numerator denominator hfr
          rw [hfr] at hq0 hqpos
          exact ⟨hq0, hqpos⟩
        · intro hfr
          rw [hfr] at hqpos
          have := hqpos (by decide)
          simpa using this
  · intro numerator
    constructor
    · simp [frameRate]
    · unfold frameRate double_div
      by_cases h : numerator = 0 <;> simp [h]

/-- C7 (witness): `valid.mp4` in the sample framework reports 30000/1001, and the record
returned carries that quotient. -/
theorem C7_fps_zero_denominator_witness :
    ∃ r, ExtractVideoMetadata sampleFramework 10 "valid.mp4" = some r ∧
      r.json.dataField "fps" = some (JsonValue.num (DoubleVal.finite (30000 / 1001))) := by
  obtain ⟨hall, _, hex⟩ := C7_fps_zero_denominator sampleFramework 10 "valid.mp4"
  obtain ⟨r, hr, hs⟩ := hex (by decide) (by decide) ⟨2, by decide, by decide, by decide⟩
  obtain ⟨q, hq, _, hdesc⟩ := hall r hr hs
  have := ((hdesc sampleVideoType (by decide) (by decide)).1 30000 1001 rfl).2 (by decide)
  rw [this] at hq
  exact ⟨r, hr, by simpa using hq⟩

theorem QuadPart_small (v : Nat) (h : v < 2 ^ 63) : QuadPart v = (v : Int) := by
  unfold QuadPart
  split_ifs <;> omega

/-- C8 (counterexample): a video descriptor that reports a frame width of `2 ^ 31`, a
legal `UINT32`, yields a success record whose width member is `-2147483648`. -/
theorem C8_counterexample_negative_width :
    (ExtractVideoMetadata (frameworkOpening (videoOnlyReader wideVideoType)) 5 "wide.mp4").map
      (fun r => (r.json.isSuccessRecord, r.json.dataField "width")) =
      some (true, some (JsonValue.int (-2147483648))) := by
  decide

/-- C8 (amended): in every success record the members width, height and bitrate are 0
when no video descriptor is obtained, and otherwise each equals the value the descriptor
reports (0 for an attribute that cannot be read) and is non-negative whenever that
value is below `2 ^ 31`; duration is 0 when the duration attribute is unavailable, and
otherwise equals the tick count divided by 10000 by integer division and is
non-negative whenever the tick count is below `2 ^ 63`. Such a record is returned
whenever init and open succeed and the stream enumeration ends. -/
theorem C8_integer_members (mf : MediaFoundation) (fuel : Nat) (path : String) :
    (∀ r, ExtractVideoMetadata mf fuel path = some r → r.json.isSuccessRecord = true →
      ∃ width height bitrate duration : Int,
        r.json.dataField "width" = some (JsonValue.int width) ∧
        r.json.dataField "height" = some (JsonValue.int height) ∧
        r.json.dataField "bitrate" = some (JsonValue.int bitrate) ∧
        r.json.dataField "duration" = some (JsonValue.int duration) ∧
        (obtained (videoReply mf path) = false → width = 0 ∧ height = 0 ∧ bitrate = 0) ∧
        (∀ pType, obtained (videoReply mf path) = true →
          (videoReply mf path).2 = some pType →
          ((pType.frameSize.getD (0, 0)).1 < 2 ^ 31 →
            width = ((pType.frameSize.getD (0, 0)).1 : Int) ∧ 0 ≤ width) ∧
          ((pType.frameSize.getD (0, 0)).2 < 2 ^ 31 →
            height = ((pType.frameSize.getD (0, 0)).2 : Int) ∧ 0 ≤ height) ∧
          (pType.avgBitrate.getD 0 < 2 ^ 31 →
            bitrate = ((pType.avgBitrate.getD 0 : Nat) : Int) ∧ 0 ≤ bitrate)) ∧
        (SUCCEEDED (durationReply mf path).1 = false → duration = 0) ∧
        (SUCCEEDED (durationReply mf path).1 = true → (durationReply mf path).2 < 2 ^ 63 →
          duration = (((durationReply mf path).2 / 10000 : Nat) : Int) ∧ 0 ≤ duration)) ∧
    (FAILED mf.MFStartup = false → FAILED (openStatus mf path) = false →
      enumerationEnds (openedReader mf path) fuel →
      ∃ r, ExtractVideoMetadata mf fuel path = some r ∧ r.json.isSuccessRecord = true) := by
  refine ⟨?_, ExtractVideoMetadata_returns_success mf fuel path⟩
  intro r hr hs
  obtain ⟨_, _, sc, hj⟩ := ExtractVideoMetadata_json_of_success mf fuel path r hr hs
  have hl := lookup_dataMembers (readVideo (videoReply mf path))
    (readDuration (durationReply mf path)) (readAudio (audioReply mf path))
    (GetFileExtension (StringToWString path)) sc
  simp only [] at hl
  obtain ⟨hw, hh, hd, _, hb, _⟩ := hl
  refine ⟨_, _, _, _, by rw [hj, dataField_successPayload, hw],
    by rw [hj, dataField_successPayload, hh], by rw [hj, dataField_successPayload, hb],
    by rw [hj, dataField_successPayload, hd], ?_, ?_, ?_, ?_⟩
  · intro hno
    rw [readVideo_not_obtained _ hno]
    exact ⟨rfl, rfl, rfl⟩
  · intro pType hob hp
    rw [readVideo_obtained _ pType hob hp]
    refine ⟨fun h => ?_, fun h => ?_, fun h => ?_⟩
    · simp only [UINT32_to_int_small _ h]
      exact ⟨trivial, Int.natCast_nonneg _⟩
    · simp only [UINT32_to_int_small _ h]
      exact ⟨trivial, Int.natCast_nonneg _⟩
    · simp only [UINT32_to_int_small _ h]
      exact ⟨trivial, Int.natCast_nonneg _⟩
  · intro hf
    exact readDuration_failed _ hf
  · intro hsucc hlt
    have hq := QuadPart_small _ hlt
    have : readDuration (durationReply mf path) =
        (((durationReply mf path).2 / 10000 : Nat) : Int) := by
      unfold readDuration
      rw [if_pos hsucc, hq]
      rfl
    rw [this]
    exact ⟨rfl, Int.natCast_nonneg _⟩

/-- C8 (witness): `valid.mp4` in the sample framework reports 1920x1080 and a duration
of 100000000 ticks; the record returned carries width 1920 and duration 10000. -/
theorem C8_integer_members_witness :
    ∃ r, ExtractVideoMetadata sampleFramework 10 "valid.mp4" = some r ∧
      r.json.dataField "width" = some (JsonValue.int 1920) ∧
      r.json.dataField "duration" = some (JsonValue.int 10000) := by
  obtain ⟨hall, hex⟩ := C8_integer_members sampleFramework 10 "valid.mp4"
  obtain ⟨r, hr, hs⟩ := hex (by decide) (by decide) ⟨2, by decide, by decide, by decide⟩
  obtain ⟨w, h, b, d, hw, _, _, hd, _, hdesc, _, hdur⟩ := hall r hr hs
  have h1 := ((hdesc sampleVideoType (by decide) (by decide)).1 (by decide)).1
  have h2 := (hdur (by decide) (by decide)).1
  rw [h1] at hw
  rw [h2] at hd
  exact ⟨r, hr, hw, hd⟩

theorem descriptorCount_le (pReader : SourceReader) :
    ∀ (d k : Nat), descriptorCount pReader k d ≤ d := by
  intro d
  induction d with
  | zero => intro k; simp [descriptorCount]
  | succ d ih =>
    intro k
    have := ih (k + 1)
    unfold descriptorCount
    split_ifs <;> omega

theorem descriptorCount_all (pReader : SourceReader) :
    ∀ (d k : Nat),
      (∀ i, k ≤ i → i < k + d → (pReader.GetCurrentMediaType i).2.isSome = true) →
      descriptorCount pReader k d = d := by
  intro d
  induction d with
  | zero => intro k _; simp [descriptorCount]
  | succ d ih =>
    intro k h
    have h1 := ih (k + 1) (fun i hi1 hi2 => h i (by omega) (by omega))
    have h0 := h k (le_refl k) (by omega)
    unfold descriptorCount
    rw [h1, if_pos h0]
    omega

/-- C10 (counterexample): the request succeeds at index 0 with a NULL descriptor,
succeeds at index 1 with a descriptor and fails at index 2. The smallest failing index
is 2 and the successes from index 0 are broken at index 0 already, but the loop ends
with streamCount 1: it runs on past the NULL descriptor and increments the counter only
under `if (pStreamType)`. -/
theorem C10_counterexample_null_descriptor :
    firstFailure (openedReader (frameworkOpening nullDescriptorReader) "clip.mp4") 2 ∧
    ((openedReader (frameworkOpening nullDescriptorReader) "clip.mp4").GetCurrentMediaType 0).2 =
      none ∧
    (ExtractVideoMetadata (frameworkOpening nullDescriptorReader) 5 "clip.mp4").map
      (fun r => r.json.dataField "streamCount") = some (some (JsonValue.int 1)) := by
  refine ⟨⟨by decide, ?_⟩, by decide, by decide⟩
  intro i hi
  interval_cases i <;> decide

/-- C10 (amended): whenever init and open succeed and the current-media-type request
fails at some `DWORD` stream index, `n` being the smallest such index, the stream-count
loop ends once more than `n` iterations are allowed and streamCount is the number of
indices below `n` at which a non-NULL descriptor was returned, as held by the 32-bit
`int` counter; that number is at most `n`; streamCount equals `n` itself when every
request below `n` returned a descriptor and `n` is below `2 ^ 31`, and it is 0 when
index 0 fails. -/
theorem C10_stream_count (mf : MediaFoundation) (fuel : Nat) (path : String) (n : Nat)
    (hinit : FAILED mf.MFStartup = false) (hopen : FAILED (openStatus mf path) = false)
    (hn : n < 2 ^ 32) (hfuel : n < fuel) (hff : firstFailure (openedReader mf path) n) :
    ∃ r, ExtractVideoMetadata mf fuel path = some r ∧
      r.json.isSuccessRecord = true ∧
      r.json.dataField "streamCount" =
        some (JsonValue.int (UINT32_to_int (descriptorCount (openedReader mf path) 0 n))) ∧
      descriptorCount (openedReader mf path) 0 n ≤ n ∧
      ((∀ i, i < n → ((openedReader mf path).GetCurrentMediaType i).2.isSome = true) →
        n < 2 ^ 31 → r.json.dataField "streamCount" = some (JsonValue.int (n : Int))) ∧
      (n = 0 → r.json.dataField "streamCount" = some (JsonValue.int 0)) := by
  refine ⟨_, ExtractVideoMetadata_success mf fuel path n hinit hopen hn hfuel hff,
    isSuccessRecord_successPayload _ _ _ _ _, ?_, descriptorCount_le _ _ _, ?_, ?_⟩
  · rw [dataField_successPayload]
    exact (lookup_dataMembers _ _ _ _ _).2.2.2.2.2.2.2.2.1
  · intro hall hn31
    rw [dataField_successPayload]
    have hcount : descriptorCount (openedReader mf path) 0 n = n :=
      descriptorCount_all _ n 0 (fun i _ hi => hall i (by omega))
    rw [(lookup_dataMembers _ _ _ _ _).2.2.2.2.2.2.2.2.1, hcount, UINT32_to_int_small n hn31]
  · intro h0
    subst h0
    rw [dataField_successPayload]
    exact (lookup_dataMembers _ _ _ _ _).2.2.2.2.2.2.2.2.1

/-- C10 (witness): in the sample framework the requests for `valid.mp4` succeed at
indices 0 and 1 and fail at index 2; the record carries streamCount 2. -/
theorem C10_stream_count_witness :
    ∃ r, ExtractVideoMetadata sampleFramework 10 "valid.mp4" = some r ∧
      r.json.dataField "streamCount" = some (JsonValue.int 2) := by
  have hff : firstFailure (openedReader sampleFramework "valid.mp4") 2 := by
    refine ⟨by decide, ?_⟩
    intro i hi
    interval_cases i <;> decide
  obtain ⟨r, hr, _, _, _, hall, _⟩ := C10_stream_count sampleFramework 10 "valid.mp4" 2
    (by decide) (by decide) (by decide) (by decide) hff
  refine ⟨r, hr, hall ?_ (by decide)⟩
  intro i hi
  interval_cases i <;> decide

theorem scan_spec : ∀ (l : List Char) (lastpoint : Option (List Char)),
    PathFindExtensionW.scan l lastpoint =
      match afterLastDot l with
      | some ext => if hasSeparator ext then [] else '.' :: ext
      | none => if hasSeparator l then [] else lastpoint.getD [] := by
  intro l
  induction l with
  | nil => intro lastpoint; simp [PathFindExtensionW.scan, afterLastDot, hasSeparator]
  | cons c cs ih =>
    intro lastpoint
    unfold PathFindExtensionW.scan afterLastDot
    by_cases hsep : c = Char.ofNat 92 ∨ c = ' '
    · have hdot : c ≠ '.' := by
        rcases hsep with h | h <;> (rw [h]; decide)
      rw [if_pos hsep, ih none]
      cases hd : afterLastDot cs with
      | some ext => simp
      | none => simp [hasSeparator, hsep, hdot]
    · rw [if_neg hsep]
      by_cases hdot : c = '.'
      · rw [if_pos hdot, ih]
        cases hd : afterLastDot cs with
        | some ext => simp
        | none => simp [hdot]
      · rw [if_neg hdot, ih]
        cases hd : afterLastDot cs with
        | some ext => simp
        | none =>
          have : hasSeparator (c :: cs) = hasSeparator cs := by
            simp [hasSeparator, hsep]
          simp [hdot, this]

theorem GetFileExtension_spec (path : List Char) :
    GetFileExtension path =
      match afterLastDot (c_str path) with
      | some ext => if hasSeparator ext then "" else String.mk ext
      | none => "" := by
  unfold GetFileExtension PathFindExtensionW
  rw [scan_spec]
  cases hd : afterLastDot (c_str path) with
  | some ext =>
    by_cases hs : hasSeparator ext = true
    · simp [hs]
    · simp [hs, WStringToString_eq]
  | none =>
    by_cases hs : hasSeparator (c_str path) = true <;> simp [hs]

theorem afterLastDot_none_iff : ∀ (l : List Char), afterLastDot l = none ↔ '.' ∉ l := by
  intro l
  induction l with
  | nil => simp [afterLastDot]
  | cons c cs ih =>
    unfold afterLastDot
    cases hd : afterLastDot cs with
    | some ext =>
      have : ¬ ('.' ∉ cs) := fun h => by rw [ih.2 h] at hd; exact Option.noConfusion hd
      simp only [List.mem_cons, not_or]
      constructor
      · intro h; exact Option.noConfusion h
      · intro h; exact absurd h.2 this
    | none =>
      have hcs : '.' ∉ cs := ih.1 hd
      by_cases hdot : c = '.'
      · simp [hdot]
      · simp only [if_neg hdot, List.mem_cons, not_or, true_iff]
        exact ⟨fun h => hdot h.symm, hcs⟩

theorem afterLastDot_some_iff : ∀ (l ext : List Char),
    afterLastDot l = some ext ↔ ∃ pre, l = pre ++ '.' :: ext ∧ '.' ∉ ext := by
  intro l
  induction l with
  | nil =>
    intro ext
    simp [afterLastDot]
  | cons c cs ih =>
    intro ext
    unfold afterLastDot
    cases hd : afterLastDot cs with
    | some ext2 =>
      obtain ⟨pre, hpre, hno⟩ := (ih ext2).1 hd
      constructor
      · intro h
        obtain rfl := Option.some.inj h
        exact ⟨c :: pre, by rw [hpre]; rfl, hno⟩
      · rintro ⟨pre2, hpre2, hno2⟩
        cases pre2 with
        | nil =>
          simp only [List.nil_append, List.cons.injEq] at hpre2
          obtain ⟨_, rfl⟩ := hpre2
          have : '.' ∈ pre ++ '.' :: ext2 := by simp
          rw [← hpre] at this
          exact absurd this hno2
        | cons a pre3 =>
          simp only [List.cons_append, List.cons.injEq] at hpre2
          have := (ih ext).2 ⟨pre3, hpre2.2, hno2⟩
          rw [hd] at this
          exact this
    | none =>
      have hcs : '.' ∉ cs := (afterLastDot_none_iff cs).1 hd
      by_cases hdot : c = '.'
      · simp only [if_pos hdot]
        constructor
        · intro h
          obtain rfl := Option.some.inj h
          exact ⟨[], by rw [hdot]; rfl, hcs⟩
        · rintro ⟨pre2, hpre2, _⟩
          cases pre2 with
          | nil =>
            simp only [List.nil_append, List.cons.injEq] at hpre2
            rw [hpre2.2]
          | cons a pre3 =>
            simp only [List.cons_append, List.cons.injEq] at hpre2
            have : '.' ∈ cs := by rw [hpre2.2]; simp
            exact absurd this hcs
      · simp only [if_neg hdot]
        constructor
        · intro h; exact Option.noConfusion h
        · rintro ⟨pre2, hpre2, _⟩
          cases pre2 with
          | nil =>
            simp only [List.nil_append, List.cons.injEq] at hpre2
            exact absurd hpre2.1 hdot
          | cons a pre3 =>
            simp only [List.cons_append, List.cons.injEq] at hpre2
            have : '.' ∈ cs := by rw [hpre2.2]; simp
            exact absurd this hcs

theorem c_str_of_no_nul (w : List Char) (h : Char.ofNat 0 ∉ w) : c_str w = w := by
  unfold c_str
  rw [List.takeWhile_eq_self_iff]
  intro c hc
  have : c ≠ Char.ofNat 0 := fun heq => h (heq ▸ hc)
  simpa using this

theorem hasSeparator_eq_false (ext : List Char)
    (h : ∀ c ∈ ext, c ≠ Char.ofNat 92 ∧ c ≠ ' ') : hasSeparator ext = false := by
  unfold hasSeparator
  rw [List.any_eq_false]
  intro c hc
  have := h c hc
  simp [this.1, this.2]

theorem hasSeparator_eq_true (ext : List Char)
    (h : ∃ c ∈ ext, c = Char.ofNat 92 ∨ c = ' ') : hasSeparator ext = true := by
  unfold hasSeparator
  rw [List.any_eq_true]
  obtain ⟨c, hc, hsep⟩ := h
  exact ⟨c, hc, by simpa using hsep⟩

/-- C6 (counterexample): for the path `C:\videos.old\clip` the substring after the last
`.` is `old\clip`, and for `trailer.final cut` it is `final cut`; in both cases the
platform routine finds no extension and the container member of the success record is
the empty string. -/
theorem C6_counterexample_separator_after_dot :
    (containerSpec "C:\\videos.old\\clip" = "old\\clip" ∧
      (ExtractVideoMetadata (frameworkOpening sampleReader) 5 "C:\\videos.old\\clip").map
        (fun r => r.json.dataField "container") = some (some (JsonValue.str ""))) ∧
    (containerSpec "trailer.final cut" = "final cut" ∧
      (ExtractVideoMetadata (frameworkOpening sampleReader) 5 "trailer.final cut").map
        (fun r => r.json.dataField "container") = some (some (JsonValue.str ""))) := by
  decide

/-- C6 (amended): for every path, read up to its first NUL character as the platform
interface reads it, the container member of a success record is what `GetFileExtension`
returns: the substring after the last `.` of the path, with no leading dot and the
characters unchanged, when neither a backslash nor a space follows that `.`; the empty
string when a backslash or a space follows the last `.`; and the empty string when the
path has no `.`. So "a/b/movie.MKV" gives "MKV" and "no_extension_file" gives "". -/
theorem C6_container_tag (path : String) :
    (∀ mf fuel r, ExtractVideoMetadata mf fuel path = some r →
      r.json.isSuccessRecord = true →
      r.json.dataField "container" =
        some (JsonValue.str (GetFileExtension (StringToWString path)))) ∧
    (∀ ext, afterLastDot (c_str (StringToWString path)) = some ext →
      (∀ c ∈ ext, c ≠ Char.ofNat 92 ∧ c ≠ ' ') →
      GetFileExtension (StringToWString path) = String.mk ext ∧ '.' ∉ ext) ∧
    (∀ ext, afterLastDot (c_str (StringToWString path)) = some ext →
      (∃ c ∈ ext, c = Char.ofNat 92 ∨ c = ' ') →
      GetFileExtension (StringToWString path) = "") ∧
    (afterLastDot (c_str (StringToWString path)) = none →
      GetFileExtension (StringToWString path) = "") ∧
    (∀ ext, afterLastDot (c_str (StringToWString path)) = some ext ↔
      ∃ pre, c_str (StringToWString path) = pre ++ '.' :: ext ∧ '.' ∉ ext) ∧
    (afterLastDot (c_str (StringToWString path)) = none ↔
      '.' ∉ c_str (StringToWString path)) ∧
    (Char.ofNat 0 ∉ path.data → c_str (StringToWString path) = path.data) ∧
    GetFileExtension (StringToWString "a/b/movie.MKV") = "MKV" ∧
    GetFileExtension (StringToWString "no_extension_file") = "" := by
  refine ⟨?_, ?_, ?_, ?_, afterLastDot_some_iff _, afterLastDot_none_iff _, ?_,
    by decide, by decide⟩
  · intro mf fuel r hr hs
    obtain ⟨_, _, sc, hj⟩ := ExtractVideoMetadata_json_of_success mf fuel path r hr hs
    rw [hj, dataField_successPayload]
    exact (lookup_dataMembers _ _ _ _ _).2.2.2.2.2.2.1
  · intro ext hext hsep
    rw [GetFileExtension_spec, hext]
    simp only [hasSeparator_eq_false ext hsep]
    exact ⟨by simp, ((afterLastDot_some_iff _ _).1 hext).choose_spec.2⟩
  · intro ext hext hsep
    rw [GetFileExtension_spec, hext]
    simp only [hasSeparator_eq_true ext hsep]
    simp
  · intro hnone
    rw [GetFileExtension_spec, hnone]
  · intro hnul
    rw [StringToWString_eq]
    exact c_str_of_no_nul _ hnul

/-- C6 (witness): the last `.` of "a/b/movie.MKV" is followed by "MKV", which holds no
backslash and no space, so the container is "MKV". -/
theorem C6_container_tag_witness :
    GetFileExtension (StringToWString "a/b/movie.MKV") = String.mk ['M', 'K', 'V'] :=
  ((C6_container_tag "a/b/movie.MKV").2.1 ['M', 'K', 'V'] (by decide) (by decide)).1

theorem MFState.run_append (s : MFState) (l1 l2 : List MFEvent) :
    MFState.run s (l1 ++ l2) = MFState.run (MFState.run s l1) l2 := by
  unfold MFState.run
  exact List.foldl_append _ _ _ _

theorem SUCCEEDED_eq_not_FAILED (hr : HRESULT) : SUCCEEDED hr = !FAILED hr := by
  unfold SUCCEEDED FAILED
  by_cases h : hr < 0
  · have : ¬ (0 ≤ hr) := not_le.mpr h
    simp [h, this]
  · have : 0 ≤ hr := not_lt.mp h
    simp [h, this]

theorem run_probeEvents (s : MFState) (site : CallSite) (reply : HRESULT × Option MediaType) :
    MFState.run s (probeEvents site reply) =
      { outstanding := s.outstanding
        acquired := probeHandles site reply ++ s.acquired
        released := probeHandles site reply ++ s.released
        fault := s.fault } := by
  unfold probeEvents probeHandles
  cases h : obtained reply <;>
    simp [MFState.run, MFState.step, MFEvent.acquires, MFEvent.releases]

theorem run_durationEvents (s : MFState) (reply : HRESULT × Nat) :
    MFState.run s (durationEvents reply) =
      { outstanding := s.outstanding
        acquired := durationHandles reply ++ s.acquired
        released := durationHandles reply ++ s.released
        fault := s.fault } := by
  unfold durationEvents durationHandles
  rw [SUCCEEDED_eq_not_FAILED]
  cases h : FAILED reply.1 <;>
    simp [MFState.run, MFState.step, MFEvent.acquires, MFEvent.releases, h]

theorem run_loopEvents (pReader : SourceReader) :
    ∀ (d k : Nat) (s : MFState),
      MFState.run s (loopEvents pReader k d) =
        { outstanding := s.outstanding
          acquired := loopHandles pReader k d ++ s.acquired
          released := loopHandles pReader k d ++ s.released
          fault := s.fault } := by
  intro d
  induction d with
  | zero =>
    intro k s
    simp [loopEvents, loopHandles, MFState.run, MFState.step, MFEvent.acquires,
      MFEvent.releases]
  | succ d ih =>
    intro k s
    unfold loopEvents loopHandles
    rw [MFState.run_append, ih]
    cases h : (pReader.GetCurrentMediaType k).2.isSome <;>
      simp [MFState.run, MFState.step, MFEvent.acquires, MFEvent.releases]

theorem mem_loopHandles (pReader : SourceReader) :
    ∀ (d k : Nat) (h : Handle),
      h ∈ loopHandles pReader k d ↔
        ∃ i, k ≤ i ∧ i < k + d ∧ (pReader.GetCurrentMediaType i).2.isSome = true ∧
          h = Handle.mediaType (CallSite.streamLoop i) := by
  intro d
  induction d with
  | zero =>
    intro k h
    simp only [loopHandles, List.not_mem_nil, false_iff]
    rintro ⟨i, h1, h2, _⟩
    omega
  | succ d ih =>
    intro k h
    unfold loopHandles
    rw [List.mem_append, ih]
    constructor
    · rintro (⟨i, h1, h2, h3, h4⟩ | hk)
      · exact ⟨i, by omega, by omega, h3, h4⟩
      · by_cases hs : (pReader.GetCurrentMediaType k).2.isSome = true
        · rw [if_pos hs, List.mem_singleton] at hk
          exact ⟨k, le_refl k, by omega, hs, hk⟩
        · rw [if_neg hs] at hk
          exact absurd hk (List.not_mem_nil _)
    · rintro ⟨i, h1, h2, h3, h4⟩
      by_cases hik : i = k
      · subst hik
        right
        rw [if_pos h3, List.mem_singleton]
        exact h4
      · left
        exact ⟨i, by omega, by omega, h3, h4⟩

theorem nodup_loopHandles (pReader : SourceReader) :
    ∀ (d k : Nat), (loopHandles pReader k d).Nodup := by
  intro d
  induction d with
  | zero => intro k; simp [loopHandles]
  | succ d ih =>
    intro k
    unfold loopHandles
    rw [List.nodup_append]
    refine ⟨ih (k + 1), ?_, ?_⟩
    · split_ifs <;> simp
    · intro a ha hb
      rw [mem_loopHandles] at ha
      obtain ⟨i, h1, _, _, rfl⟩ := ha
      by_cases hs : (pReader.GetCurrentMediaType k).2.isSome = true
      · rw [if_pos hs, List.mem_singleton] at hb
        have : i = k := by
          injection hb with h
          injection h
        omega
      · rw [if_neg hs] at hb
        exact absurd hb (List.not_mem_nil _)

theorem run_success_log (mf : MediaFoundation) (path : String) (n : Nat)
    (hinit : FAILED mf.MFStartup = false) (hopen : FAILED (openStatus mf path) = false) :
    MFState.run MFState.initial
      ([MFEvent.MFStartup mf.MFStartup,
        MFEvent.MFCreateSourceReaderFromURL (c_str (StringToWString path))
          (openStatus mf path)] ++
        probeEvents CallSite.videoProbe (videoReply mf path) ++
        durationEvents (durationReply mf path) ++
        probeEvents CallSite.audioProbe (audioReply mf path) ++
        loopEvents (openedReader mf path) 0 n ++
        [MFEvent.ReaderRelease, MFEvent.MFShutdown]) =
      { outstanding := []
        acquired := callHandles mf path n ++ [Handle.sourceReader, Handle.subsystem]
        released := Handle.subsystem :: Handle.sourceReader :: callHandles mf path n
        fault := false } := by
  rw [MFState.run_append, MFState.run_append, MFState.run_append, MFState.run_append,
    MFState.run_append, run_loopEvents, run_probeEvents, run_durationEvents, run_probeEvents]
  simp [MFState.run, MFState.step, MFEvent.acquires, MFEvent.releases, MFState.initial,
    hinit, hopen, callHandles]

theorem mem_callHandles (mf : MediaFoundation) (path : String) (n : Nat) (h : Handle) :
    h ∈ callHandles mf path n ↔
      (∃ i, i < n ∧ ((openedReader mf path).GetCurrentMediaType i).2.isSome = true ∧
        h = Handle.mediaType (CallSite.streamLoop i)) ∨
      (obtained (audioReply mf path) = true ∧ h = Handle.mediaType CallSite.audioProbe) ∨
      (SUCCEEDED (durationReply mf path).1 = true ∧ h = Handle.propVariant) ∨
      (obtained (videoReply mf path) = true ∧ h = Handle.mediaType CallSite.videoProbe) := by
  unfold callHandles probeHandles durationHandles
  simp only [List.mem_append, mem_loopHandles]
  constructor
  · rintro (⟨i, _, hi, hs, rfl⟩ | ha | hd | hv)
    · exact Or.inl ⟨i, by omega, hs, rfl⟩
    · by_cases hc : obtained (audioReply mf path) = true
      · rw [if_pos hc, List.mem_singleton] at ha
        exact Or.inr (Or.inl ⟨hc, ha⟩)
      · rw [if_neg hc] at ha
        exact absurd ha (List.not_mem_nil _)
    · by_cases hc : SUCCEEDED (durationReply mf path).1 = true
      · rw [if_pos hc, List.mem_singleton] at hd
        exact Or.inr (Or.inr (Or.inl ⟨hc, hd⟩))
      · rw [if_neg hc] at hd
        exact absurd hd (List.not_mem_nil _)
    · by_cases hc : obtained (videoReply mf path) = true
      · rw [if_pos hc, List.mem_singleton] at hv
        exact Or.inr (Or.inr (Or.inr ⟨hc, hv⟩))
      · rw [if_neg hc] at hv
        exact absurd hv (List.not_mem_nil _)
  · rintro (⟨i, hi, hs, rfl⟩ | ⟨hc, rfl⟩ | ⟨hc, rfl⟩ | ⟨hc, rfl⟩)
    · exact Or.inl ⟨i, Nat.zero_le i, by omega, hs, rfl⟩
    · exact Or.inr (Or.inl (by rw [if_pos hc]; exact List.mem_singleton.2 rfl))
    · exact Or.inr (Or.inr (Or.inl (by rw [if_pos hc]; exact List.mem_singleton.2 rfl)))
    · exact Or.inr (Or.inr (Or.inr (by rw [if_pos hc]; exact List.mem_singleton.2 rfl)))

theorem nodup_callHandles (mf : MediaFoundation) (path : String) (n : Nat) :
    (callHandles mf path n ++ [Handle.sourceReader, Handle.subsystem]).Nodup := by
  rw [List.nodup_append]
  refine ⟨?_, by decide, ?_⟩
  · unfold callHandles
    rw [List.nodup_append]
    refine ⟨nodup_loopHandles _ _ _, ?_, ?_⟩
    · unfold probeHandles durationHandles
      split_ifs <;> decide
    · intro a ha hb
      rw [mem_loopHandles] at ha
      obtain ⟨i, _, _, _, rfl⟩ := ha
      unfold probeHandles durationHandles at hb
      split_ifs at hb <;> simp at hb
  · intro a ha hb
    rw [mem_callHandles] at ha
    rcases ha with ⟨i, _, _, rfl⟩ | ⟨_, rfl⟩ | ⟨_, rfl⟩ | ⟨_, rfl⟩ <;> simp at hb

theorem count_released_eq (H : List Handle) (h : Handle) :
    (Handle.subsystem :: Handle.sourceReader :: H).count h =
      (H ++ [Handle.sourceReader, Handle.subsystem]).count h := by
  simp only [List.count_append, List.count_cons, List.count_nil]
  omega

/-- C9: replaying the framework calls of any returned call of `ExtractVideoMetadata`,
from a state with nothing outstanding, ends with nothing outstanding and no release of
a handle that was not outstanding; no handle is handed out twice, every handle handed
out is released exactly once, and nothing else is released. If init fails nothing is
handed out and nothing is released; the subsystem handle is handed out (so released
once) exactly when init succeeds, the source reader exactly when init and open succeed,
the video and audio descriptors exactly when their probe obtains one, and the
descriptor of stream index `i` exactly when the loop reaches `i` (no request up to `i`
fails) and receives a non-NULL descriptor. A call returns whenever init fails, open
fails or the stream enumeration ends. -/
theorem C9_handles_released (mf : MediaFoundation) (fuel : Nat) (path : String) :
    (∀ r, ExtractVideoMetadata mf fuel path = some r →
      (MFState.run MFState.initial r.log).outstanding = [] ∧
      (MFState.run MFState.initial r.log).fault = false ∧
      (MFState.run MFState.initial r.log).acquired.Nodup ∧
      (∀ h, h ∈ (MFState.run MFState.initial r.log).acquired →
        (MFState.run MFState.initial r.log).released.count h = 1) ∧
      (∀ h, h ∉ (MFState.run MFState.initial r.log).acquired →
        (MFState.run MFState.initial r.log).released.count h = 0) ∧
      (FAILED mf.MFStartup = true →
        (MFState.run MFState.initial r.log).acquired = [] ∧
        (MFState.run MFState.initial r.log).released = []) ∧
      (Handle.subsystem ∈ (MFState.run MFState.initial r.log).acquired ↔
        FAILED mf.MFStartup = false) ∧
      (Handle.sourceReader ∈ (MFState.run MFState.initial r.log).acquired ↔
        (FAILED mf.MFStartup = false ∧ FAILED (openStatus mf path) = false)) ∧
      (Handle.mediaType CallSite.videoProbe ∈ (MFState.run MFState.initial r.log).acquired ↔
        (FAILED mf.MFStartup = false ∧ FAILED (openStatus mf path) = false ∧
          obtained (videoReply mf path) = true)) ∧
      (Handle.mediaType CallSite.audioProbe ∈ (MFState.run MFState.initial r.log).acquired ↔
        (FAILED mf.MFStartup = false ∧ FAILED (openStatus mf path) = false ∧
          obtained (audioReply mf path) = true)) ∧
      (∀ i, Handle.mediaType (CallSite.streamLoop i) ∈
          (MFState.run MFState.initial r.log).acquired ↔
        (FAILED mf.MFStartup = false ∧ FAILED (openStatus mf path) = false ∧
          (∀ j, j ≤ i → FAILED ((openedReader mf path).GetCurrentMediaType j).1 = false) ∧
          ((openedReader mf path).GetCurrentMediaType i).2.isSome = true))) ∧
    ((FAILED mf.MFStartup = true ∨ FAILED (openStatus mf path) = true ∨
        enumerationEnds (openedReader mf path) fuel) →
      ∃ r, ExtractVideoMetadata mf fuel path = some r) := by
  refine ⟨?_, ExtractVideoMetadata_returns mf fuel path⟩
  intro r hr
  by_cases h1 : FAILED mf.MFStartup = true
  · have := ExtractVideoMetadata_init_failure mf fuel path h1
    rw [hr] at this
    obtain rfl := Option.some.inj this
    have hs : MFState.run MFState.initial [MFEvent.MFStartup mf.MFStartup] =
        MFState.initial := by
      simp [MFState.run, MFState.step, MFEvent.acquires, MFEvent.releases, h1]
    simp only [hs]
    simp [MFState.initial, h1]
  · have h1f : FAILED mf.MFStartup = false := by simpa using h1
    by_cases h2 : FAILED (openStatus mf path) = true
    · have := ExtractVideoMetadata_open_failure mf fuel path h1f h2
      rw [hr] at this
      obtain rfl := Option.some.inj this
      have hs : MFState.run MFState.initial
          [MFEvent.MFStartup mf.MFStartup,
            MFEvent.MFCreateSourceReaderFromURL (c_str (StringToWString path))
              (openStatus mf path),
            MFEvent.MFShutdown] =
          { outstanding := [], acquired := [Handle.subsystem],
            released := [Handle.subsystem], fault := false } := by
        simp [MFState.run, MFState.step, MFEvent.acquires, MFEvent.releases,
          MFState.initial, h1f, h2]
      simp only [hs]
      simp [h1f, h2]
      intro h hne
      exact List.count_eq_zero_of_not_mem (by simpa using hne)
    · have h2f : FAILED (openStatus mf path) = false := by simpa using h2
      obtain ⟨n, _, _, hff, rfl⟩ := ExtractVideoMetadata_success_inv mf fuel path r hr h1f h2f
      simp only [run_success_log mf path n h1f h2f]
      have hnd := nodup_callHandles mf path n
      refine ⟨trivial, trivial, hnd, ?_, ?_, ?_, ?_, ?_, ?_, ?_, ?_⟩
      · intro h hmem
        rw [count_released_eq]
        exact List.count_eq_one_of_mem hnd hmem
      · intro h hmem
        rw [count_released_eq]
        exact List.count_eq_zero_of_not_mem hmem
      · intro hc
        rw [h1f] at hc
        exact Bool.noConfusion hc
      · simp [h1f]
      · simp [h1f, h2f]
      · rw [List.mem_append, mem_callHandles]
        simp [h1f, h2f]
      · rw [List.mem_append, mem_callHandles]
        simp [h1f, h2f]
      · intro i
        rw [List.mem_append, mem_callHandles]
        simp only [h1f, h2f, true_and]
        constructor
        · rintro ((⟨k, hk, hs, heq⟩ | ⟨_, heq⟩ | ⟨_, heq⟩ | ⟨_, heq⟩) | hmem)
          · have hik : i = k := by
              injection heq with h
              injection h
            subst hik
            exact ⟨fun j hj => hff.2 j (by omega), hs⟩
          · exact Handle.noConfusion heq (fun h => CallSite.noConfusion h)
          · exact Handle.noConfusion heq
          · exact Handle.noConfusion heq (fun h => CallSite.noConfusion h)
          · simp at hmem
        · rintro ⟨hall, hs⟩
          left
          left
          refine ⟨i, ?_, hs, rfl⟩
          by_contra hge
          have := hall n (by omega)
          rw [hff.1] at this
          exact Bool.noConfusion this

/-- C9 (witness): the call for `valid.mp4` in the sample framework returns, and the
replay of its framework calls ends with nothing outstanding. -/
theorem C9_handles_released_witness :
    ∃ r, ExtractVideoMetadata sampleFramework 10 "valid.mp4" = some r ∧
      (MFState.run MFState.initial r.log).outstanding = [] := by
  obtain ⟨hall, hex⟩ := C9_handles_released sampleFramework 10 "valid.mp4"
  obtain ⟨r, hr⟩ := hex (Or.inr (Or.inr ⟨2, by decide, by decide, by decide⟩))
  exact ⟨r, hr, (hall r hr).1⟩

theorem getBatchResults_eq (fmt : DoubleVal → String) (mf : MediaFoundation) (fuel : Nat) :
    ∀ paths : List EncodableValue,
      getBatchResults fmt mf fuel paths = extractAll fmt mf fuel (stringElements paths) := by
  intro paths
  induction paths with
  | nil => rfl
  | cons v rest ih =>
    cases v <;> simp only [getBatchResults, stringElements, extractAll, ih]

theorem extractAll_of_returns (fmt : DoubleVal → String) (mf : MediaFoundation) (fuel : Nat)
    (f : String → Extraction) :
    ∀ ps : List String, (∀ p ∈ ps, ExtractVideoMetadata mf fuel p = some (f p)) →
      extractAll fmt mf fuel ps =
        some (ps.map (fun p => EncodableValue.string ((f p).json.render fmt))) := by
  intro ps
  induction ps with
  | nil => intro _; rfl
  | cons p rest ih =>
    intro h
    unfold extractAll
    rw [h p (List.mem_cons_self _ _), ih (fun q hq => h q (List.mem_cons_of_mem _ hq))]
    rfl

theorem extractAll_length (fmt : DoubleVal → String) (mf : MediaFoundation) (fuel : Nat) :
    ∀ (ps : List String) (results : List EncodableValue),
      extractAll fmt mf fuel ps = some results → results.length = ps.length := by
  intro ps
  induction ps with
  | nil =>
    intro results h
    obtain rfl := Option.some.inj h
    rfl
  | cons p rest ih =>
    intro results h
    unfold extractAll at h
    cases he : ExtractVideoMetadata mf fuel p with
    | none => rw [he] at h; exact Option.noConfusion h
    | some r =>
      rw [he] at h
      cases hr : extractAll fmt mf fuel rest with
      | none => rw [hr] at h; exact Option.noConfusion h
      | some rs =>
        rw [hr] at h
        obtain rfl := Option.some.inj h
        simp [ih rs hr]

/-- C2: for every non-empty list given under the "paths" key of a `getBatch` call, the
reply is the success reply carrying the list obtained by running the extractor on
exactly the string elements of the list, in their original order, each result
serialized; non-string elements contribute nothing. The length of the reply is the
number of string elements; when every run returns, the reply is the element-wise list
of the serialized records; and a path that fails to open appears in it as the
serialized failure record. -/
theorem C2_batch_reply (fmt : DoubleVal → String) (mf : MediaFoundation) (fuel : Nat)
    (entries : List (EncodableValue × EncodableValue)) (paths : List EncodableValue)
    (hfind : EncodableMap_find "paths" entries = some (EncodableValue.list paths))
    (hne : paths ≠ []) :
    HandleMethodCall fmt mf fuel "getBatch" (some (EncodableValue.map entries)) =
      (extractAll fmt mf fuel (stringElements paths)).map
        (fun results => MethodResult.Success (EncodableValue.list results)) ∧
    (∀ results,
      HandleMethodCall fmt mf fuel "getBatch" (some (EncodableValue.map entries)) =
        some (MethodResult.Success (EncodableValue.list results)) →
      results.length = (stringElements paths).length) ∧
    (∀ f : String → Extraction,
      (∀ p ∈ stringElements paths, ExtractVideoMetadata mf fuel p = some (f p)) →
      HandleMethodCall fmt mf fuel "getBatch" (some (EncodableValue.map entries)) =
        some (MethodResult.Success (EncodableValue.list
          ((stringElements paths).map
            (fun p => EncodableValue.string ((f p).json.render fmt))))) ∧
      ∀ p ∈ stringElements paths, FAILED mf.MFStartup = false →
        FAILED (openStatus mf p) = true →
        (f p).json.render fmt =
          "\x7b\"success\":false,\"error\":\"Failed to open video file\"\x7d") := by
  have hmain : HandleMethodCall fmt mf fuel "getBatch" (some (EncodableValue.map entries)) =
      (extractAll fmt mf fuel (stringElements paths)).map
        (fun results => MethodResult.Success (EncodableValue.list results)) := by
    have hempty : paths.isEmpty = false := by
      cases paths with
      | nil => exact absurd rfl hne
      | cons _ _ => rfl
    have hname : ("getBatch" = "getInfo") = False := by decide
    unfold HandleMethodCall
    simp only [hname, if_false, if_true, hfind, hempty, getBatchResults_eq]
    cases extractAll fmt mf fuel (stringElements paths) <;> rfl
  refine ⟨hmain, ?_, ?_⟩
  · intro results h
    rw [hmain] at h
    cases he : extractAll fmt mf fuel (stringElements paths) with
    | none => rw [he] at h; exact Option.noConfusion h
    | some rs =>
      rw [he] at h
      simp only [Option.map_some', Option.some.injEq, MethodResult.Success.injEq,
        EncodableValue.list.injEq] at h
      subst h
      exact extractAll_length fmt mf fuel _ _ he
  · intro f hf
    refine ⟨?_, ?_⟩
    · rw [hmain, extractAll_of_returns fmt mf fuel f _ hf]
      rfl
    · intro p hp hinit hopen
      have h1 := hf p hp
      rw [ExtractVideoMetadata_open_failure mf fuel p hinit hopen] at h1
      rw [← Option.some.inj h1]
      rfl

/-- C2 (witness): the batch call with paths = ["valid.mp4", 123, "missing.mp4"] against
the sample framework replies with exactly two results: the serialized record of
`valid.mp4`, then the serialized open-failure record of `missing.mp4`. -/
theorem C2_batch_reply_witness :
    HandleMethodCall sampleFormat sampleFramework 10 "getBatch"
      (some (EncodableValue.map
        [(EncodableValue.string "paths",
          EncodableValue.list [EncodableValue.string "valid.mp4", EncodableValue.int32 123,
            EncodableValue.string "missing.mp4"])])) =
      some (MethodResult.Success (EncodableValue.list
        [EncodableValue.string ((sampleRecord "valid.mp4").json.render sampleFormat),
         EncodableValue.string
           "\x7b\"success\":false,\"error\":\"Failed to open video file\"\x7d"])) := by
  have hreturns : ∀ p ∈ stringElements [EncodableValue.string "valid.mp4",
      EncodableValue.int32 123, EncodableValue.string "missing.mp4"],
      ExtractVideoMetadata sampleFramework 10 p = some (sampleRecord p) := by
    intro p hp
    have hp2 : p = "valid.mp4" ∨ p = "missing.mp4" := by
      simpa [stringElements] using hp
    have hex : ∃ r, ExtractVideoMetadata sampleFramework 10 p = some r := by
      rcases hp2 with rfl | rfl
      · exact ExtractVideoMetadata_returns _ _ _
          (Or.inr (Or.inr ⟨2, by decide, by decide, by decide⟩))
      · exact ExtractVideoMetadata_returns _ _ _ (Or.inr (Or.inl (by decide)))
    obtain ⟨r, hr⟩ := hex
    unfold sampleRecord
    rw [hr]
  obtain ⟨hreply, hfail⟩ := (C2_batch_reply sampleFormat sampleFramework 10
    [(EncodableValue.string "paths",
      EncodableValue.list [EncodableValue.string "valid.mp4", EncodableValue.int32 123,
        EncodableValue.string "missing.mp4"])]
    [EncodableValue.string "valid.mp4", EncodableValue.int32 123,
      EncodableValue.string "missing.mp4"]
    (by simp [EncodableMap_find]) (by simp)).2.2 sampleRecord hreturns
  have h2 := hfail "missing.mp4" (by simp [stringElements]) (by decide) (by decide)
  rw [hreply]
  simp only [stringElements, List.map_cons, List.map_nil, h2]

theorem cutAtQuotes_cons_quote (cs : List Char) :
    cutAtQuotes (Char.ofNat 34 :: cs) = ([], (cutAtQuotes cs).1 :: (cutAtQuotes cs).2) := by
  simp [cutAtQuotes]

theorem cutAtQuotes_cons_other (c : Char) (cs : List Char) (h : c ≠ Char.ofNat 34) :
    cutAtQuotes (c :: cs) = (c :: (cutAtQuotes cs).1, (cutAtQuotes cs).2) := by
  simp [cutAtQuotes, h]

theorem cutAtQuotes_append (a t : List Char) (h : Char.ofNat 34 ∉ a) :
    cutAtQuotes (a ++ t) = (a ++ (cutAtQuotes t).1, (cutAtQuotes t).2) := by
  induction a with
  | nil => simp
  | cons c cs ih =>
    have hc : c ≠ Char.ofNat 34 := fun heq => h (heq ▸ List.mem_cons_self _ _)
    have hcs : Char.ofNat 34 ∉ cs := fun hm => h (List.mem_cons_of_mem _ hm)
    rw [List.cons_append, cutAtQuotes_cons_other _ _ hc, ih hcs]
    rfl

theorem digitChar_plain (n : Nat) : jsonPlain (Nat.digitChar n) = true := by
  by_cases h : n < 16
  · interval_cases n <;> decide
  · have h0 : Nat.digitChar n = '*' := by
      unfold Nat.digitChar
      have : ∀ k, k < 16 → n ≠ k := fun k hk heq => h (heq ▸ hk)
      simp [this]
    rw [h0]
    decide

theorem toDigitsCore_plain (base : Nat) :
    ∀ (fuel n : Nat) (ds : List Char), (∀ c ∈ ds, jsonPlain c = true) →
      ∀ c ∈ Nat.toDigitsCore base fuel n ds, jsonPlain c = true := by
  intro fuel
  induction fuel with
  | zero => intro n ds h; simpa [Nat.toDigitsCore] using h
  | succ f ih =>
    intro n ds h
    have hd : ∀ c ∈ Nat.digitChar (n % base) :: ds, jsonPlain c = true := by
      intro c hc
      rcases List.mem_cons.1 hc with rfl | hc
      · exact digitChar_plain _
      · exact h c hc
    unfold Nat.toDigitsCore
    simp only []
    split_ifs
    · exact hd
    · exact ih _ _ hd

theorem toString_nat_plain (n : Nat) : ∀ c ∈ (toString n).data, jsonPlain c = true := by
  show ∀ c ∈ (Nat.toDigitsCore 10 (n + 1) n []), jsonPlain c = true
  exact toDigitsCore_plain 10 _ _ _ (fun c hc => absurd hc (List.not_mem_nil c))

theorem toString_int_plain (i : Int) : ∀ c ∈ (toString i).data, jsonPlain c = true := by
  cases i with
  | ofNat m => exact toString_nat_plain m
  | negSucc m =>
    show ∀ c ∈ ("-" ++ toString (Nat.succ m)).data, jsonPlain c = true
    intro c hc
    rw [String.data_append, List.mem_append] at hc
    rcases hc with hc | hc
    · have : c = '-' := by simpa using hc
      subst this
      decide
    · exact toString_nat_plain _ c hc

theorem noQuote_of_plain (l : List Char) (h : ∀ c ∈ l, jsonPlain c = true) :
    Char.ofNat 34 ∉ l := by
  intro hm
  have := h _ hm
  revert this
  decide

theorem toString_int_noQuote (i : Int) : Char.ofNat 34 ∉ (toString i).data :=
  noQuote_of_plain _ (toString_int_plain i)

set_option maxRecDepth 8000 in
/-- The string literals of the success text when no text written into it holds a double
quote. -/
theorem literals_successText (fmt : DoubleVal → String) (video : VideoFields)
    (durationMs : Int) (audio : AudioFields) (container : String) (streamCount : Int)
    (hfps : Char.ofNat 34 ∉ (fmt video.fps).data)
    (hcodec : Char.ofNat 34 ∉ video.codec.data)
    (haudio : Char.ofNat 34 ∉ audio.audioCodec.data)
    (hcontainer : Char.ofNat 34 ∉ container.data) :
    literals (successText fmt video durationMs audio container streamCount).data =
      successLiterals fmt video durationMs audio container streamCount := by
  have h1 := toString_int_noQuote video.width
  have h2 := toString_int_noQuote video.height
  have h3 := toString_int_noQuote durationMs
  have h4 := toString_int_noQuote video.bitrate
  have h5 := toString_int_noQuote video.rotation
  have h6 := toString_int_noQuote audio.sampleRate
  have h7 := toString_int_noQuote audio.channels
  have h8 := toString_int_noQuote streamCount
  cases h : audio.hasAudio <;>
    simp [successText, successLiterals, literals, h, String.data_append,
      cutAtQuotes_cons_quote, cutAtQuotes_cons_other, cutAtQuotes_append, pairUp,
      h1, h2, h3, h4, h5, h6, h7, h8, hfps, hcodec, haudio, hcontainer, cutAtQuotes]

theorem rawOk_of_plain (l : List Char) (h : ∀ c ∈ l, jsonPlain c = true) :
    l.all rawOk = true := by
  rw [List.all_eq_true]
  intro c hc
  have := h c hc
  unfold jsonPlain at this
  exact (Bool.and_eq_true _ _ ▸ this).1

set_option maxRecDepth 8000 in
/-- The success text needs no escape when no text written into it does. -/
theorem isPlainText_successText (fmt : DoubleVal → String) (video : VideoFields)
    (durationMs : Int) (audio : AudioFields) (container : String) (streamCount : Int)
    (hfps : (fmt video.fps).data.all rawOk = true)
    (hcodec : video.codec.data.all rawOk = true)
    (haudio : audio.audioCodec.data.all rawOk = true)
    (hcontainer : container.data.all rawOk = true) :
    isPlainText (successText fmt video durationMs audio container streamCount) = true := by
  have h1 := rawOk_of_plain _ (toString_int_plain video.width)
  have h2 := rawOk_of_plain _ (toString_int_plain video.height)
  have h3 := rawOk_of_plain _ (toString_int_plain durationMs)
  have h4 := rawOk_of_plain _ (toString_int_plain video.bitrate)
  have h5 := rawOk_of_plain _ (toString_int_plain video.rotation)
  have h6 := rawOk_of_plain _ (toString_int_plain audio.sampleRate)
  have h7 := rawOk_of_plain _ (toString_int_plain audio.channels)
  have h8 := rawOk_of_plain _ (toString_int_plain streamCount)
  unfold isPlainText
  cases h : audio.hasAudio <;>
    simp only [successText, h, String.data_append, List.all_append, Bool.and_eq_true,
      h1, h2, h3, h4, h5, h6, h7, h8, hfps, hcodec, haudio, hcontainer, if_true, if_false,
      and_true, true_and, Bool.false_eq_true] <;>
    decide

set_option maxRecDepth 8000 in
/-- What the lexical reading finds in the success text when no text written into it
holds a double quote: the members, with their values, that lines 184-202 write. -/
theorem successText_reading (fmt : DoubleVal → String) (video : VideoFields)
    (durationMs : Int) (audio : AudioFields) (container : String) (streamCount : Int)
    (hfps : Char.ofNat 34 ∉ (fmt video.fps).data)
    (hcodec : Char.ofNat 34 ∉ video.codec.data)
    (haudio : Char.ofNat 34 ∉ audio.audioCodec.data)
    (hcontainer : Char.ofNat 34 ∉ container.data) :
    textHasMember (successText fmt video durationMs audio container streamCount)
      "success" ":true," = true ∧
    textHasMember (successText fmt video durationMs audio container streamCount)
      "success" ":false," = false ∧
    textHasKey (successText fmt video durationMs audio container streamCount) "data" = true ∧
    textHasKey (successText fmt video durationMs audio container streamCount) "error" = false ∧
    textHasMember (successText fmt video durationMs audio container streamCount)
      "hasAudio" ":true," = audio.hasAudio ∧
    textHasMember (successText fmt video durationMs audio container streamCount)
      "hasAudio" ":false," = !audio.hasAudio ∧
    textHasKey (successText fmt video durationMs audio container streamCount) "audioCodec" =
      audio.hasAudio ∧
    textHasKey (successText fmt video durationMs audio container streamCount) "sampleRate" =
      audio.hasAudio ∧
    textHasKey (successText fmt video durationMs audio container streamCount) "channels" =
      audio.hasAudio ∧
    textHasStringMember (successText fmt video durationMs audio container streamCount)
      "codec" video.codec = true ∧
    textHasMember (successText fmt video durationMs audio container streamCount)
      "width" (":" ++ toString video.width ++ ",") = true ∧
    textHasMember (successText fmt video durationMs audio container streamCount)
      "height" (":" ++ toString video.height ++ ",") = true ∧
    textHasMember (successText fmt video durationMs audio container streamCount)
      "bitrate" (":" ++ toString video.bitrate ++ ",") = true ∧
    textHasMember (successText fmt video durationMs audio container streamCount)
      "duration" (":" ++ toString durationMs ++ ",") = true ∧
    textHasMember (successText fmt video durationMs audio container streamCount)
      "fps" (":" ++ fmt video.fps ++ ",") = true := by
  have hl := literals_successText fmt video durationMs audio container streamCount
    hfps hcodec haudio hcontainer
  unfold textHasMember textHasKey textHasStringMember memberKeys stringMembers
  rw [hl]
  cases h : audio.hasAudio <;>
    simp [successLiterals, h, String.data_append, stringMembersFrom]

theorem readVideo_codec_plain (reply : HRESULT × Option MediaType) :
    ∀ c ∈ (readVideo reply).codec.data, jsonPlain c = true := by
  have hall : ∀ s ∈ ["", "h264", "hevc", "vp8", "vp9", "wmv3", "mpeg2", "unknown"],
      ∀ c ∈ s.data, jsonPlain c = true := by decide
  rcases obtained_cases reply with hno | ⟨pType, hob, hp⟩
  · rw [readVideo_not_obtained _ hno]
    exact hall "" (by simp)
  · rw [readVideo_obtained _ pType hob hp]
    cases hsub : pType.subtype with
    | none => exact hall "" (by simp)
    | some subtype => exact hall _ (List.mem_cons_of_mem _ (videoCodecName_mem subtype))

theorem readAudio_codec_plain (reply : HRESULT × Option MediaType) :
    ∀ c ∈ (readAudio reply).audioCodec.data, jsonPlain c = true := by
  have hall : ∀ s ∈ ["", "aac", "mp3", "wma", "pcm", "unknown"],
      ∀ c ∈ s.data, jsonPlain c = true := by decide
  have hname : ∀ g, audioCodecName g ∈ ["", "aac", "mp3", "wma", "pcm", "unknown"] := by
    intro g
    unfold audioCodecName
    split_ifs <;> simp
  have hmem : (readAudio reply).audioCodec ∈ ["", "aac", "mp3", "wma", "pcm", "unknown"] := by
    unfold readAudio
    cases h1 : SUCCEEDED reply.1
    · simp
    · cases h2 : reply.2 with
      | none => simp
      | some pAudioType =>
        cases h3 : pAudioType.subtype with
        | none => simp [h3]
        | some g => simpa [h3] using hname g
  exact hall _ hmem

theorem GetFileExtension_no_backslash (path : List Char) :
    Char.ofNat 92 ∉ (GetFileExtension path).data := by
  rw [GetFileExtension_spec]
  cases hd : afterLastDot (c_str path) with
  | none => simp
  | some ext =>
    by_cases hs : hasSeparator ext = true
    · simp [hs]
    · simp only [hs]
      intro hm
      apply hs
      exact hasSeparator_eq_true ext ⟨_, hm, Or.inl rfl⟩

set_option maxRecDepth 8000 in
/-- What the lexical reading finds in the two failure texts of lines 59 and 68. -/
theorem failureText_reading (fmt : DoubleVal → String) :
    (isFailureText ((failurePayload "Failed to initialize Media Foundation").render fmt) = true ∧
      isSuccessText ((failurePayload "Failed to initialize Media Foundation").render fmt) = false ∧
      textHasKey ((failurePayload "Failed to initialize Media Foundation").render fmt) "data" =
        false ∧
      textHasStringMember ((failurePayload "Failed to initialize Media Foundation").render fmt)
        "error" "Failed to initialize Media Foundation" = true) ∧
    (isFailureText ((failurePayload "Failed to open video file").render fmt) = true ∧
      isSuccessText ((failurePayload "Failed to open video file").render fmt) = false ∧
      textHasKey ((failurePayload "Failed to open video file").render fmt) "data" = false ∧
      textHasStringMember ((failurePayload "Failed to open video file").render fmt)
        "error" "Failed to open video file" = true) := by
  rw [render_failurePayload, render_failurePayload]
  decide

/-- The text returned by a successful call, with what the lexical reading finds in it,
when neither the formatter nor the container tag writes a double quote. -/
theorem success_text_reading (fmt : DoubleVal → String) (mf : MediaFoundation) (fuel : Nat)
    (path : String) (r : Extraction) (hr : ExtractVideoMetadata mf fuel path = some r)
    (hinit : FAILED mf.MFStartup = false) (hopen : FAILED (openStatus mf path) = false)
    (hfmt : ∀ d, Char.ofNat 34 ∉ (fmt d).data)
    (hquote : Char.ofNat 34 ∉ (GetFileExtension (StringToWString path)).data) :
    ∃ streamCount,
      r.json.render fmt = successText fmt (readVideo (videoReply mf path))
        (readDuration (durationReply mf path)) (readAudio (audioReply mf path))
        (GetFileExtension (StringToWString path)) streamCount ∧
      textHasMember (r.json.render fmt) "success" ":true," = true ∧
      textHasMember (r.json.render fmt) "success" ":false," = false ∧
      textHasKey (r.json.render fmt) "data" = true ∧
      textHasKey (r.json.render fmt) "error" = false ∧
      textHasMember (r.json.render fmt) "hasAudio" ":true," = obtained (audioReply mf path) ∧
      textHasMember (r.json.render fmt) "hasAudio" ":false," =
        !obtained (audioReply mf path) ∧
      textHasKey (r.json.render fmt) "audioCodec" = obtained (audioReply mf path) ∧
      textHasKey (r.json.render fmt) "sampleRate" = obtained (audioReply mf path) ∧
      textHasKey (r.json.render fmt) "channels" = obtained (audioReply mf path) ∧
      textHasStringMember (r.json.render fmt) "codec" (readVideo (videoReply mf path)).codec =
        true ∧
      textHasMember (r.json.render fmt) "width"
        (":" ++ toString (readVideo (videoReply mf path)).width ++ ",") = true ∧
      textHasMember (r.json.render fmt) "height"
        (":" ++ toString (readVideo (videoReply mf path)).height ++ ",") = true ∧
      textHasMember (r.json.render fmt) "bitrate"
        (":" ++ toString (readVideo (videoReply mf path)).bitrate ++ ",") = true ∧
      textHasMember (r.json.render fmt) "duration"
        (":" ++ toString (readDuration (durationReply mf path)) ++ ",") = true ∧
      textHasMember (r.json.render fmt) "fps"
        (":" ++ fmt (readVideo (videoReply mf path)).fps ++ ",") = true := by
  rcases ExtractVideoMetadata_cases mf fuel path r hr with
    ⟨h1, _⟩ | ⟨_, h2, _⟩ | ⟨_, _, sc, ll, _, rfl⟩
  · rw [hinit] at h1; exact Bool.noConfusion h1
  · rw [hopen] at h2; exact Bool.noConfusion h2
  · refine ⟨sc, render_successPayload _ _ _ _ _ _, ?_⟩
    simp only [render_successPayload]
    have h := successText_reading fmt (readVideo (videoReply mf path))
      (readDuration (durationReply mf path)) (readAudio (audioReply mf path))
      (GetFileExtension (StringToWString path)) sc (hfmt _)
      (noQuote_of_plain _ (readVideo_codec_plain _))
      (noQuote_of_plain _ (readAudio_codec_plain _)) hquote
    rw [readAudio_hasAudio] at h
    exact h

/-- The text returned by a successful call needs no escape when neither the formatter
nor the container tag writes a character that needs one. -/
theorem success_text_plain (fmt : DoubleVal → String) (mf : MediaFoundation) (fuel : Nat)
    (path : String) (r : Extraction) (hr : ExtractVideoMetadata mf fuel path = some r)
    (hinit : FAILED mf.MFStartup = false) (hopen : FAILED (openStatus mf path) = false)
    (hfmt : ∀ d, ∀ c ∈ (fmt d).data, jsonPlain c = true)
    (hcontainer : ∀ c ∈ (GetFileExtension (StringToWString path)).data, 32 ≤ c.toNat) :
    isPlainText (r.json.render fmt) = true := by
  rcases ExtractVideoMetadata_cases mf fuel path r hr with
    ⟨h1, _⟩ | ⟨_, h2, _⟩ | ⟨_, _, sc, ll, _, rfl⟩
  · rw [hinit] at h1; exact Bool.noConfusion h1
  · rw [hopen] at h2; exact Bool.noConfusion h2
  · simp only [render_successPayload]
    refine isPlainText_successText _ _ _ _ _ _ (rawOk_of_plain _ (hfmt _))
      (rawOk_of_plain _ (readVideo_codec_plain _))
      (rawOk_of_plain _ (readAudio_codec_plain _)) ?_
    rw [List.all_eq_true]
    intro c hc
    have hb : c ≠ Char.ofNat 92 := fun heq =>
      GetFileExtension_no_backslash _ (heq ▸ hc)
    have h32 := hcontainer c hc
    simp [rawOk, hb, h32]

set_option maxRecDepth 16000 in
/-- C1 (counterexample): three behaviours. Against a framework whose reader answers
every stream index with a descriptor, while init and open succeed, the call returns no
record at all, whatever the number of loop iterations allowed. For a path whose
extension is `mp4"},"error":"boom","d":{"a":"` the text returned has `success` true, a
`data` member and an `error` member as well. For a path whose extension holds a tab the
text returned holds a raw control character inside a string and is neither a success
record nor a failure record. -/
theorem C1_counterexample_no_record :
    (¬ ∃ fuel r, ExtractVideoMetadata endlessFramework fuel "clip.mp4" = some r) ∧
    (ExtractVideoMetadata (frameworkOpening (videoOnlyReader sampleVideoType)) 5
        injectedErrorPath).map
      (fun r => (isSuccessText (r.json.render sampleFormat),
        textHasKey (r.json.render sampleFormat) "error")) = some (true, true) ∧
    (ExtractVideoMetadata (frameworkOpening (videoOnlyReader sampleVideoType)) 5 tabPath).map
      (fun r => (isSuccessText (r.json.render sampleFormat),
        isFailureText (r.json.render sampleFormat))) = some (false, false) := by
  refine ⟨?_, by decide, by decide⟩
  rintro ⟨fuel, r, h⟩
  rcases ExtractVideoMetadata_cases _ _ _ _ h with ⟨h1, _⟩ | ⟨_, h2, _⟩ | ⟨_, _, sc, ll, hc, _⟩
  · exact absurd h1 (by decide)
  · exact absurd h2 (by decide)
  · have hok : ∀ i, FAILED ((openedReader endlessFramework "clip.mp4").GetCurrentMediaType i).1
        = false := fun _ => rfl
    rw [countStreams_none _ hok] at hc
    exact Option.noConfusion hc

set_option maxRecDepth 16000 in
/-- C4 (counterexample): a file with no audio stream, opened under a path whose
extension is `mp4","audioCodec":"aac","sampleRate":44100,"channels":2,"x":"`. The audio
probe obtains nothing and the text returned is a success record with `hasAudio` false,
yet it carries the keys `audioCodec`, `sampleRate` and `channels`: the container tag is
written into the text without escaping. -/
theorem C4_counterexample_injected_audio_keys :
    obtained (audioReply (frameworkOpening (videoOnlyReader sampleVideoType))
      injectedAudioPath) = false ∧
    (ExtractVideoMetadata (frameworkOpening (videoOnlyReader sampleVideoType)) 5
        injectedAudioPath).map
      (fun r => (isSuccessText (r.json.render sampleFormat),
        textHasMember (r.json.render sampleFormat) "hasAudio" ":false,",
        textHasKey (r.json.render sampleFormat) "audioCodec",
        textHasKey (r.json.render sampleFormat) "sampleRate",
        textHasKey (r.json.render sampleFormat) "channels")) =
      some (true, true, true, true, true) := by
  decide

theorem sampleFormat_plain (d : DoubleVal) : ∀ c ∈ (sampleFormat d).data, jsonPlain c = true := by
  show ∀ c ∈ "29.97".data, jsonPlain c = true
  decide

theorem sampleFormat_noQuote (d : DoubleVal) : Char.ofNat 34 ∉ (sampleFormat d).data :=
  noQuote_of_plain _ (sampleFormat_plain d)

/-- C1 (amended): for every path whose container tag holds no double quote and no
control character, with a number formatter that writes neither of these nor a backslash,
and for every framework in which init fails, the open step fails, or the
current-media-type request fails at some stream index within the iterations allowed,
`ExtractVideoMetadata` returns a text that is a failure record or a success record and
never both. It is the failure record (success false, an `error` string member, no
`data` member) exactly when init or open fails, and the success record (success true, a
`data` member, no `error` member) exactly when both succeed, whatever the later steps
do: a failed video probe leaves width, height and bitrate at 0, fps at the formatted 0
and codec empty, a failed duration request leaves duration at 0, and a failed audio
probe gives hasAudio false with the three audio members absent. -/
theorem C1_exactly_one_record (fmt : DoubleVal → String) (mf : MediaFoundation)
    (fuel : Nat) (path : String)
    (hfmt : ∀ d, ∀ c ∈ (fmt d).data, jsonPlain c = true)
    (hcontainer : ∀ c ∈ (GetFileExtension (StringToWString path)).data,
      c ≠ Char.ofNat 34 ∧ 32 ≤ c.toNat)
    (h : FAILED mf.MFStartup = true ∨ FAILED (openStatus mf path) = true ∨
      enumerationEnds (openedReader mf path) fuel) :
    ∃ r, ExtractVideoMetadata mf fuel path = some r ∧
      (isFailureText (r.json.render fmt) = true ∨ isSuccessText (r.json.render fmt) = true) ∧
      ¬ (isFailureText (r.json.render fmt) = true ∧ isSuccessText (r.json.render fmt) = true) ∧
      (isFailureText (r.json.render fmt) = true ↔
        (FAILED mf.MFStartup = true ∨ FAILED (openStatus mf path) = true)) ∧
      (isSuccessText (r.json.render fmt) = true ↔
        (FAILED mf.MFStartup = false ∧ FAILED (openStatus mf path) = false)) ∧
      (isFailureText (r.json.render fmt) = true →
        textHasKey (r.json.render fmt) "data" = false ∧
        ∃ message, textHasStringMember (r.json.render fmt) "error" message = true) ∧
      (isSuccessText (r.json.render fmt) = true →
        textHasKey (r.json.render fmt) "error" = false ∧
        (obtained (videoReply mf path) = false →
          textHasMember (r.json.render fmt) "width" ":0," = true ∧
          textHasMember (r.json.render fmt) "height" ":0," = true ∧
          textHasMember (r.json.render fmt) "bitrate" ":0," = true ∧
          textHasStringMember (r.json.render fmt) "codec" "" = true ∧
          textHasMember (r.json.render fmt) "fps"
            (":" ++ fmt (DoubleVal.finite 0) ++ ",") = true) ∧
        (SUCCEEDED (durationReply mf path).1 = false →
          textHasMember (r.json.render fmt) "duration" ":0," = true) ∧
        (obtained (audioReply mf path) = false →
          textHasMember (r.json.render fmt) "hasAudio" ":false," = true ∧
          textHasKey (r.json.render fmt) "audioCodec" = false ∧
          textHasKey (r.json.render fmt) "sampleRate" = false ∧
          textHasKey (r.json.render fmt) "channels" = false)) := by
  obtain ⟨r, hr⟩ := ExtractVideoMetadata_returns mf fuel path h
  refine ⟨r, hr, ?_⟩
  obtain ⟨⟨hi1, hi2, hi3, hi4⟩, ⟨ho1, ho2, ho3, ho4⟩⟩ := failureText_reading fmt
  by_cases h1 : FAILED mf.MFStartup = true
  · have := ExtractVideoMetadata_init_failure mf fuel path h1
    rw [hr] at this
    obtain rfl := Option.some.inj this
    simp only [hi1, hi2, hi3, h1]
    simp
    exact ⟨_, hi4⟩
  · have h1f : FAILED mf.MFStartup = false := by simpa using h1
    by_cases h2 : FAILED (openStatus mf path) = true
    · have := ExtractVideoMetadata_open_failure mf fuel path h1f h2
      rw [hr] at this
      obtain rfl := Option.some.inj this
      simp only [ho1, ho2, ho3, h1f, h2]
      simp
      exact ⟨_, ho4⟩
    · have h2f : FAILED (openStatus mf path) = false := by simpa using h2
      have hq : Char.ofNat 34 ∉ (GetFileExtension (StringToWString path)).data :=
        fun hm => (hcontainer _ hm).1 rfl
      obtain ⟨sc, _, hs1, hs2, hdata, herr, _, haf, hk1, hk2, hk3, hcodec, hw, hh, hb, hd,
        hfps⟩ := success_text_reading fmt mf fuel path r hr h1f h2f
          (fun d => noQuote_of_plain _ (hfmt d)) hq
      have hplain := success_text_plain fmt mf fuel path r hr h1f h2f hfmt
        (fun c hc => (hcontainer c hc).2)
      have hsucc : isSuccessText (r.json.render fmt) = true := by
        simp [isSuccessText, hplain, hs1, hdata]
      have hfail : isFailureText (r.json.render fmt) = false := by
        simp [isFailureText, hs2]
      have e0 : (":" ++ toString (0 : Int) ++ ",") = ":0," := by decide
      simp only [hsucc, hfail, h1f, h2f, herr]
      refine ⟨Or.inr trivial, by simp, by simp, by simp, by simp, fun _ => ⟨trivial, ?_, ?_, ?_⟩⟩
      · intro hv
        have hV := readVideo_not_obtained _ hv
        have hw0 : (readVideo (videoReply mf path)).width = 0 := by rw [hV]
        have hh0 : (readVideo (videoReply mf path)).height = 0 := by rw [hV]
        have hb0 : (readVideo (videoReply mf path)).bitrate = 0 := by rw [hV]
        have hc0 : (readVideo (videoReply mf path)).codec = "" := by rw [hV]
        have hf0 : (readVideo (videoReply mf path)).fps = DoubleVal.finite 0 := by rw [hV]
        rw [hw0, e0] at hw
        rw [hh0, e0] at hh
        rw [hb0, e0] at hb
        rw [hc0] at hcodec
        rw [hf0] at hfps
        exact ⟨hw, hh, hb, hcodec, hfps⟩
      · intro hv
        rw [readDuration_failed _ hv, e0] at hd
        exact hd
      · intro hv
        rw [hv] at haf hk1 hk2 hk3
        exact ⟨haf, hk1, hk2, hk3⟩

/-- C1 (witness): the sample framework opens `valid.mp4`, whose container tag is `mp4`,
and its enumeration ends at index 2, so the call returns the success record. -/
theorem C1_exactly_one_record_witness :
    ∃ r, ExtractVideoMetadata sampleFramework 10 "valid.mp4" = some r ∧
      isSuccessText (r.json.render sampleFormat) = true := by
  obtain ⟨r, hr, _, _, _, hs, _⟩ := C1_exactly_one_record sampleFormat sampleFramework 10
    "valid.mp4" sampleFormat_plain (by decide)
    (Or.inr (Or.inr ⟨2, by decide, by decide, by decide⟩))
  exact ⟨r, hr, hs.2 ⟨by decide, by decide⟩⟩

/-- C4 (amended): for every path whose container tag holds no double quote, with a
number formatter that writes none, in every success record returned the `hasAudio`
member is true exactly when the audio descriptor probe obtained a descriptor (the
request succeeded with a non-NULL descriptor) and false otherwise, and each of the keys
`audioCodec`, `sampleRate` and `channels` is present in the returned text exactly when
`hasAudio` is true; when the probe obtains nothing the text has `hasAudio` false and
none of the three keys. Such a record is returned whenever init and open succeed, the
stream enumeration ends, and the container tag and the formatter write no character
that needs an escape. -/
theorem C4_audio_members (fmt : DoubleVal → String) (mf : MediaFoundation) (fuel : Nat)
    (path : String)
    (hfmt : ∀ d, Char.ofNat 34 ∉ (fmt d).data)
    (hquote : Char.ofNat 34 ∉ (GetFileExtension (StringToWString path)).data) :
    (∀ r, ExtractVideoMetadata mf fuel path = some r →
      isSuccessText (r.json.render fmt) = true →
      (textHasMember (r.json.render fmt) "hasAudio" ":true," = true ↔
        obtained (audioReply mf path) = true) ∧
      (textHasMember (r.json.render fmt) "hasAudio" ":false," = true ↔
        obtained (audioReply mf path) = false) ∧
      (textHasKey (r.json.render fmt) "audioCodec" = true ↔
        textHasMember (r.json.render fmt) "hasAudio" ":true," = true) ∧
      (textHasKey (r.json.render fmt) "sampleRate" = true ↔
        textHasMember (r.json.render fmt) "hasAudio" ":true," = true) ∧
      (textHasKey (r.json.render fmt) "channels" = true ↔
        textHasMember (r.json.render fmt) "hasAudio" ":true," = true) ∧
      (obtained (audioReply mf path) = false →
        textHasMember (r.json.render fmt) "hasAudio" ":false," = true ∧
        textHasKey (r.json.render fmt) "audioCodec" = false ∧
        textHasKey (r.json.render fmt) "sampleRate" = false ∧
        textHasKey (r.json.render fmt) "channels" = false)) ∧
    (FAILED mf.MFStartup = false → FAILED (openStatus mf path) = false →
      enumerationEnds (openedReader mf path) fuel →
      (∀ d, ∀ c ∈ (fmt d).data, jsonPlain c = true) →
      (∀ c ∈ (GetFileExtension (StringToWString path)).data, 32 ≤ c.toNat) →
      ∃ r, ExtractVideoMetadata mf fuel path = some r ∧
        isSuccessText (r.json.render fmt) = true) := by
  obtain ⟨⟨_, hi2, _, _⟩, ⟨_, ho2, _, _⟩⟩ := failureText_reading fmt
  constructor
  · intro r hr hs
    rcases ExtractVideoMetadata_cases mf fuel path r hr with
      ⟨_, rfl⟩ | ⟨_, _, rfl⟩ | ⟨h1f, h2f, _⟩
    · rw [hi2] at hs; exact Bool.noConfusion hs
    · rw [ho2] at hs; exact Bool.noConfusion hs
    · obtain ⟨sc, _, _, _, _, _, hat, haf, hk1, hk2, hk3, _⟩ :=
        success_text_reading fmt mf fuel path r hr h1f h2f hfmt hquote
      rw [hat, haf, hk1, hk2, hk3]
      cases obtained (audioReply mf path) <;> simp
  · intro hinit hopen hends hplainfmt hctrl
    obtain ⟨r, hr⟩ := ExtractVideoMetadata_returns mf fuel path (Or.inr (Or.inr hends))
    obtain ⟨sc, _, hs1, _, hdata, _⟩ :=
      success_text_reading fmt mf fuel path r hr hinit hopen hfmt hquote
    have hplain := success_text_plain fmt mf fuel path r hr hinit hopen hplainfmt hctrl
    exact ⟨r, hr, by simp [isSuccessText, hplain, hs1, hdata]⟩

/-- C4 (witness): `valid.mp4` in the sample framework has an audio stream, and the text
returned carries `hasAudio` true and the key `audioCodec`. -/
theorem C4_audio_members_witness :
    ∃ r, ExtractVideoMetadata sampleFramework 10 "valid.mp4" = some r ∧
      textHasMember (r.json.render sampleFormat) "hasAudio" ":true," = true ∧
      textHasKey (r.json.render sampleFormat) "audioCodec" = true := by
  obtain ⟨hall, hex⟩ := C4_audio_members sampleFormat sampleFramework 10 "valid.mp4"
    sampleFormat_noQuote (by decide)
  obtain ⟨r, hr, hs⟩ := hex (by decide) (by decide) ⟨2, by decide, by decide, by decide⟩
    sampleFormat_plain (by decide)
  obtain ⟨h1, _, h3, _⟩ := hall r hr hs
  exact ⟨r, hr, h1.2 (by decide), h3.2 (h1.2 (by decide))⟩

/-- C5 (counterexample): two descriptors. A video descriptor is obtained, but its format
identifier cannot be read (`GetGUID` fails): the call succeeds and the codec member is
the empty string, which is neither a table name nor "unknown". A video descriptor is
obtained whose identifier is the SDK's `MFVideoFormat_HEVC`: line 104 compares with
`MFVideoFormat_H265` only, and the codec member is "unknown", not "hevc". -/
theorem C5_counterexample_unreadable_subtype :
    (obtained (videoReply (frameworkOpening (videoOnlyReader untypedVideoType)) "clip.mp4") =
        true ∧
      (ExtractVideoMetadata (frameworkOpening (videoOnlyReader untypedVideoType)) 5
          "clip.mp4").map
        (fun r => (r.json.isSuccessRecord, r.json.dataField "codec")) =
        some (true, some (JsonValue.str ""))) ∧
    (obtained (videoReply (frameworkOpening (videoOnlyReader hevcVideoType)) "clip.mp4") =
        true ∧
      (ExtractVideoMetadata (frameworkOpening (videoOnlyReader hevcVideoType)) 5
          "clip.mp4").map
        (fun r => (r.json.isSuccessRecord, r.json.dataField "codec")) =
        some (true, some (JsonValue.str "unknown"))) := by
  decide

/-- C5 (amended): in every success record, whenever the video descriptor probe obtains
a descriptor and its format identifier can be read, the codec member is the name the
fixed table of lines 103-108 gives (`MFVideoFormat_H264` to "h264", `MFVideoFormat_H265`
to "hevc", `MFVideoFormat_VP80` to "vp8", `MFVideoFormat_VP90` to "vp9",
`MFVideoFormat_WMV3` to "wmv3", `MFVideoFormat_MPEG2` to "mpeg2") and "unknown" for
every identifier that is none of these six; codec is the empty string exactly when no
video descriptor was obtained or the identifier of the obtained descriptor could not
be read. The call succeeds whenever init and open succeed and the stream enumeration
ends, whatever the identifier is. -/
theorem C5_codec_table (mf : MediaFoundation) (fuel : Nat) (path : String) :
    (∀ r, ExtractVideoMetadata mf fuel path = some r → r.json.isSuccessRecord = true →
      ∃ codec : String,
        r.json.dataField "codec" = some (JsonValue.str codec) ∧
        (∀ pType subtype, obtained (videoReply mf path) = true →
          (videoReply mf path).2 = some pType → pType.subtype = some subtype →
          codec = videoCodecName subtype ∧
          codec ∈ ["h264", "hevc", "vp8", "vp9", "wmv3", "mpeg2", "unknown"]) ∧
        (codec = "" ↔
          (obtained (videoReply mf path) = false ∨
            ∃ pType, (videoReply mf path).2 = some pType ∧ pType.subtype = none))) ∧
    (videoCodecName GUID.MFVideoFormat_H264 = "h264" ∧
      videoCodecName GUID.MFVideoFormat_H265 = "hevc" ∧
      videoCodecName GUID.MFVideoFormat_VP80 = "vp8" ∧
      videoCodecName GUID.MFVideoFormat_VP90 = "vp9" ∧
      videoCodecName GUID.MFVideoFormat_WMV3 = "wmv3" ∧
      videoCodecName GUID.MFVideoFormat_MPEG2 = "mpeg2" ∧
      ∀ subtype, subtype ∉ [GUID.MFVideoFormat_H264, GUID.MFVideoFormat_H265,
          GUID.MFVideoFormat_VP80, GUID.MFVideoFormat_VP90, GUID.MFVideoFormat_WMV3,
          GUID.MFVideoFormat_MPEG2] →
        videoCodecName subtype = "unknown") ∧
    (FAILED mf.MFStartup = false → FAILED (openStatus mf path) = false →
      enumerationEnds (openedReader mf path) fuel →
      ∃ r, ExtractVideoMetadata mf fuel path = some r ∧ r.json.isSuccessRecord = true) := by
  refine ⟨?_, ⟨rfl, rfl, rfl, rfl, rfl, rfl, ?_⟩, ExtractVideoMetadata_returns_success mf fuel path⟩
  · intro r hr hs
    obtain ⟨_, _, sc, hj⟩ := ExtractVideoMetadata_json_of_success mf fuel path r hr hs
    have hl := lookup_dataMembers (readVideo (videoReply mf path))
      (readDuration (durationReply mf path)) (readAudio (audioReply mf path))
      (GetFileExtension (StringToWString path)) sc
    simp only [] at hl
    obtain ⟨_, _, _, hc, _⟩ := hl
    refine ⟨(readVideo (videoReply mf path)).codec, ?_, ?_, ?_⟩
    · rw [hj, dataField_successPayload, hc]
    · intro pType subtype hob hp hsub
      rw [readVideo_obtained _ pType hob hp]
      simp only [hsub]
      exact ⟨trivial, videoCodecName_mem subtype⟩
    · rcases obtained_cases (videoReply mf path) with hno | ⟨pType, hob, hp⟩
      · rw [readVideo_not_obtained _ hno]
        simp [hno]
      · rw [readVideo_obtained _ pType hob hp]
        cases hsub : pType.subtype with
        | none => simp [hob, hp, hsub]
        | some subtype =>
          simp only [hob, hp, hsub]
          constructor
          · intro h
            exact absurd h (videoCodecName_ne_empty subtype)
          · rintro (h | ⟨q, hq, hq2⟩)
            · exact Bool.noConfusion h
            · obtain rfl := Option.some.inj hq
              rw [hsub] at hq2
              exact Option.noConfusion hq2
  · intro subtype hmem
    simp only [List.mem_cons, List.mem_singleton, not_or, List.not_mem_nil, or_false] at hmem
    obtain ⟨h1, h2, h3, h4, h5, h6⟩ := hmem
    simp [videoCodecName, h1, h2, h3, h4, h5, h6]

/-- C5 (witness): `valid.mp4` in the sample framework has an H.264 video stream, and
the record returned carries the codec "h264". -/
theorem C5_codec_table_witness :
    ∃ r, ExtractVideoMetadata sampleFramework 10 "valid.mp4" = some r ∧
      r.json.dataField "codec" = some (JsonValue.str "h264") := by
  obtain ⟨hall, _, hex⟩ := C5_codec_table sampleFramework 10 "valid.mp4"
  obtain ⟨r, hr, hs⟩ := hex (by decide) (by decide) ⟨2, by decide, by decide, by decide⟩
  obtain ⟨codec, hc, htab, _⟩ := hall r hr hs
  have := (htab sampleVideoType GUID.MFVideoFormat_H264 (by decide) (by decide) rfl).1
  rw [this] at hc
  exact ⟨r, hr, hc⟩


end smart_video_info
